import Mathlib

/-!
Shallow embedding of the `Triangle` class of `src/triangle.js`.

Modelling conventions, used throughout:

* A JavaScript number is modelled as `Option ℝ` (`JNum`): `some x` is an
  ordinary finite value, `none` stands for the IEEE special values.  On the
  program paths exercised below specials only ever arise as `NaN` (from
  `Math.sqrt` of a negative number and from `0/0`), so `NaN` and the
  infinities are collapsed into the single absorbing value `none`.
  Arithmetic propagates `none` exactly as JS propagates `NaN`; comparisons
  with `none` are false, as every JS comparison with `NaN` is.
* `Math.sqrt x` is `Real.sqrt` for `0 ≤ x` and `none` (NaN) otherwise;
  `Math.PI` is the exact `Real.pi` (the spec states all numeric
  post-conditions up to floating-point tolerance, so the exact-real reading
  is the intended idealisation).
* `a / b` is `none` when `b = 0` (JS gives `NaN` for `0/0` and an infinity
  otherwise; no verified path divides a nonzero numerator by zero).
* The DOM/SVG side of the class (`#svg`, `#path`, `#texts`, `#draw`, the
  stroke/fill style accessors) is pure rendering, declared out of scope by
  the spec, and does not touch the vertex coordinates; it is omitted.
* JS `Array.prototype.sort` called without a comparator compares the
  `ToString` images of the elements.  `jsToString` models `ToString`
  exactly on natural-number values — the only values whose string order any
  theorem below depends on; every other finite value gets a fixed
  placeholder (the sorted result is still some permutation of the input,
  which is all the remaining proofs use).
* Vertex mutation is in place in JS; here every mutator returns the new
  vertex set, and a throwing mutator returns `.error (e, t)` where `t` is
  the vertex set as it stood at the moment of the throw, so atomicity
  claims are honest statements about the transcription.
-/

noncomputable section

/-- A JavaScript number: `some x` finite, `none` = NaN (see header). -/
abbrev JNum := Option ℝ

def jadd : JNum → JNum → JNum
  | some a, some b => some (a + b)
  | _, _ => none

def jsub : JNum → JNum → JNum
  | some a, some b => some (a - b)
  | _, _ => none

def jmul : JNum → JNum → JNum
  | some a, some b => some (a * b)
  | _, _ => none

/-- JS division; `none` when the divisor is zero (see header). -/
def jdiv : JNum → JNum → JNum
  | some a, some b => if b = 0 then none else some (a / b)
  | _, _ => none

/-- `x ** 2` / `Math.pow(x, 2)`. -/
def jsq (v : JNum) : JNum := jmul v v

/-- `Math.sqrt`: NaN on a negative argument. -/
def jsqrt : JNum → JNum
  | some a => if 0 ≤ a then some (Real.sqrt a) else none
  | none => none

def jcos : JNum → JNum := Option.map Real.cos

def jsin : JNum → JNum := Option.map Real.sin

/-- `Math.PI`, idealised as the exact constant. -/
def jpi : JNum := some Real.pi

/-- JS `<=` on numbers: false whenever an operand is NaN. -/
def jle : JNum → JNum → Prop
  | some a, some b => a ≤ b
  | _, _ => False

/-- JS `<` on numbers: false whenever an operand is NaN. -/
def jlt : JNum → JNum → Prop
  | some a, some b => a < b
  | _, _ => False

/-- JS `>` on numbers. -/
def jgt (a b : JNum) : Prop := jlt b a

/-- JS `!==` on numbers: true whenever an operand is NaN (`NaN !== NaN`). -/
def jneq : JNum → JNum → Prop
  | some a, some b => a ≠ b
  | _, _ => True

/-- JS `ToBoolean` of a number: `0`, `-0` and NaN are falsy. -/
def jtruthy : JNum → Prop
  | some a => a ≠ 0
  | none => False

open Classical in
/-- JS `a || b` on numbers. -/
def jor (a b : JNum) : JNum := if jtruthy a then a else b

@[simp] theorem jadd_some (a b : ℝ) : jadd (some a) (some b) = some (a + b) := rfl
@[simp] theorem jsub_some (a b : ℝ) : jsub (some a) (some b) = some (a - b) := rfl
@[simp] theorem jmul_some (a b : ℝ) : jmul (some a) (some b) = some (a * b) := rfl
@[simp] theorem jadd_none_left (b : JNum) : jadd none b = none := rfl
@[simp] theorem jsub_none_left (b : JNum) : jsub none b = none := rfl
@[simp] theorem jmul_none_left (b : JNum) : jmul none b = none := rfl
@[simp] theorem jadd_none_right (a : JNum) : jadd a none = none := by cases a <;> rfl
@[simp] theorem jsub_none_right (a : JNum) : jsub a none = none := by cases a <;> rfl
@[simp] theorem jmul_none_right (a : JNum) : jmul a none = none := by cases a <;> rfl
@[simp] theorem jdiv_none_left (b : JNum) : jdiv none b = none := rfl
@[simp] theorem jdiv_none_right (a : JNum) : jdiv a none = none := by cases a <;> rfl
@[simp] theorem jsqrt_none : jsqrt none = none := rfl
@[simp] theorem jsq_some (a : ℝ) : jsq (some a) = some (a * a) := rfl
@[simp] theorem jsq_none : jsq none = none := rfl
@[simp] theorem jcos_some (a : ℝ) : jcos (some a) = some (Real.cos a) := rfl
@[simp] theorem jsin_some (a : ℝ) : jsin (some a) = some (Real.sin a) := rfl
@[simp] theorem jcos_none : jcos none = none := rfl
@[simp] theorem jsin_none : jsin none = none := rfl

theorem jdiv_some_of_ne (a : ℝ) {b : ℝ} (h : b ≠ 0) :
    jdiv (some a) (some b) = some (a / b) := by simp [jdiv, h]

@[simp] theorem jdiv_some_zero (a : ℝ) : jdiv (some a) (some 0) = none := by simp [jdiv]

theorem jsqrt_some_of_nonneg {a : ℝ} (h : 0 ≤ a) :
    jsqrt (some a) = some (Real.sqrt a) := by simp [jsqrt, h]

theorem jsqrt_some_of_neg {a : ℝ} (h : a < 0) : jsqrt (some a) = none := by
  simp [jsqrt, not_le.mpr h]

@[simp] theorem jle_some (a b : ℝ) : jle (some a) (some b) ↔ a ≤ b := Iff.rfl
@[simp] theorem jlt_some (a b : ℝ) : jlt (some a) (some b) ↔ a < b := Iff.rfl
@[simp] theorem jle_none_left (b : JNum) : ¬ jle none b := fun h => h
@[simp] theorem jle_none_right (a : JNum) : ¬ jle a none := by cases a <;> exact fun h => h
@[simp] theorem jlt_none_left (b : JNum) : ¬ jlt none b := fun h => h
@[simp] theorem jlt_none_right (a : JNum) : ¬ jlt a none := by cases a <;> exact fun h => h
@[simp] theorem jgt_some (a b : ℝ) : jgt (some a) (some b) ↔ b < a := Iff.rfl
@[simp] theorem jgt_none_left (b : JNum) : ¬ jgt none b := by simp [jgt]
@[simp] theorem jgt_none_right (a : JNum) : ¬ jgt a none := by simp [jgt]

theorem jor_some_of_ne {a : ℝ} (h : a ≠ 0) (b : JNum) : jor (some a) b = some a := by
  simp [jor, jtruthy, h]

@[simp] theorem jor_zero (b : JNum) : jor (some 0) b = b := by simp [jor, jtruthy]
@[simp] theorem jor_none (b : JNum) : jor none b = b := by simp [jor, jtruthy]

/-- Decimal numeral of a natural number (JS `ToString` of an integral value). -/
def natStr (n : ℕ) : String := ⟨Nat.toDigits 10 n⟩

open Classical in
/-- JS `ToString` on a number, modelled exactly on the natural values — the
only values whose string any theorem below compares; every other finite
value gets a fixed placeholder (see the header note on the default sort). -/
def jsToString : JNum → String
  | none => "NaN"
  | some x => if h : ∃ n : ℕ, ((n : ℝ) = x) then natStr h.choose else "q"

theorem jsToString_natCast (n : ℕ) : jsToString (some ((n : ℕ) : ℝ)) = natStr n := by
  have h : ∃ m : ℕ, ((m : ℝ) = ((n : ℕ) : ℝ)) := ⟨n, rfl⟩
  have hc : h.choose = n := by
    have := h.choose_spec
    exact_mod_cast this
  simp only [jsToString, dif_pos h, hc]

/-- Lexicographic code-unit comparison of two character lists: the
ECMAScript string less-than used by the default `sort` comparator. -/
def strLtb : List Char → List Char → Bool
  | [], [] => false
  | [], _ :: _ => true
  | _ :: _, [] => false
  | a :: as, b :: bs => if a < b then true else if b < a then false else strLtb as bs

/-- The string order used by JS default `sort`. -/
def jsStrLt (u v : JNum) : Bool := strLtb (jsToString u).data (jsToString v).data

/-- `[a, b, c].sort()` with no comparator: a stable ascending sort of the
three elements in the string order of their `ToString` images, returned as
`(min, mid, max)` positions exactly as the source destructures them. -/
def jsSort3 (a b c : JNum) : JNum × JNum × JNum :=
  if jsStrLt b a then
    (if jsStrLt c b then (c, b, a) else if jsStrLt c a then (b, c, a) else (b, a, c))
  else
    (if jsStrLt c a then (c, a, b) else if jsStrLt c b then (a, c, b) else (a, b, c))

theorem jsSort3_perm (a b c : JNum) :
    jsSort3 a b c = (a, b, c) ∨ jsSort3 a b c = (a, c, b) ∨
    jsSort3 a b c = (b, a, c) ∨ jsSort3 a b c = (b, c, a) ∨
    jsSort3 a b c = (c, a, b) ∨ jsSort3 a b c = (c, b, a) := by
  unfold jsSort3
  split_ifs <;> tauto

/-- A vertex: the `{ x, y, name }` point record of the source. -/
structure Pt where
  x : JNum
  y : JNum
  name : String

/-- The vertex set `#points`: always exactly three points, in array order. -/
structure Tri where
  p0 : Pt
  p1 : Pt
  p2 : Pt

def Tri.get (t : Tri) (i : Fin 3) : Pt :=
  match i with
  | ⟨0, _⟩ => t.p0
  | ⟨1, _⟩ => t.p1
  | ⟨2, _⟩ => t.p2

def Tri.set (t : Tri) (i : Fin 3) (p : Pt) : Tri :=
  match i with
  | ⟨0, _⟩ => { t with p0 := p }
  | ⟨1, _⟩ => { t with p1 := p }
  | ⟨2, _⟩ => { t with p2 := p }

/-- Array indices of `#points`, in iteration order. -/
def Tri.idxList : List (Fin 3) := [0, 1, 2]

@[simp] theorem Tri.get_zero (t : Tri) : t.get 0 = t.p0 := rfl
@[simp] theorem Tri.get_one (t : Tri) : t.get 1 = t.p1 := rfl
@[simp] theorem Tri.get_two (t : Tri) : t.get 2 = t.p2 := rfl
@[simp] theorem Tri.set_zero (t : Tri) (p : Pt) : t.set 0 p = { t with p0 := p } := rfl
@[simp] theorem Tri.set_one (t : Tri) (p : Pt) : t.set 1 p = { t with p1 := p } := rfl
@[simp] theorem Tri.set_two (t : Tri) (p : Pt) : t.set 2 p = { t with p2 := p } := rfl

/-- The error kinds of the class, one per family of `throw` sites (the
source throws `TypeError`s whose messages distinguish exactly these cases;
the spec's `GeometryError` taxonomy maps onto them one for one). -/
inductive JsErr where
  | invalidName
  | unknownVertex
  | malformedSide
  | conflict
  | degenerate
  | invalidAngle
  | invalidLength
deriving DecidableEq

/-- `[A-Z]` of the name-segmentation regex. -/
def isUpperAZ (c : Char) : Bool := 'A' ≤ c && c ≤ 'Z'

/-- `str.matchAll(/[A-Z][^A-Z]*/g)`: segments start at each ASCII capital
and run to the next one; characters before the first capital match nothing
and are skipped. -/
def nameSegsAux : List Char → Option (List Char) → List String
  | [], none => []
  | [], some acc => [⟨acc.reverse⟩]
  | ch :: rest, none =>
    if isUpperAZ ch then nameSegsAux rest (some [ch]) else nameSegsAux rest none
  | ch :: rest, some acc =>
    if isUpperAZ ch then (⟨acc.reverse⟩ : String) :: nameSegsAux rest (some [ch])
    else nameSegsAux rest (some (ch :: acc))

def nameSegs (cs : List Char) : List String := nameSegsAux cs none

/-- `Triangle.#createDefaultTrianglePoints`. -/
def createDefaultTrianglePoints (name : String) : Except JsErr Tri :=
  match nameSegs name.data with
  | [a, b, c] =>
    .ok ⟨{ x := some 70, y := some 20, name := a },
         { x := some 20, y := some 120, name := b },
         { x := some 120, y := some 120, name := c }⟩
  | _ => .error .invalidName

/-- `side.toUpperCase()` / `name.toLowerCase()` (ASCII, which covers every
vertex-name character the class accepts). -/
def jsToUpper (s : String) : String := ⟨s.data.map Char.toUpper⟩

def jsToLower (s : String) : String := ⟨s.data.map Char.toLower⟩

/-- `/[a-z]/.test(side)`. -/
def hasLowerAZ (s : String) : Bool := s.data.any (fun c => 'a' ≤ c && c ≤ 'z')

/-- `Triangle.#getPointsByOppositeVertex`, returning array indices (JS works
with object identity; with three points in a fixed array, identity is the
index).  When duplicate vertex names make the filter return fewer or more
than two points, JS hands the short array to the caller and crashes there
with a `TypeError` on the first use of the missing element, before any
coordinate is written; that is modelled as an immediate error. -/
def getIdxsByOppositeVertex (t : Tri) (side : String) : Except JsErr (Fin 3 × Fin 3) :=
  let vertex := jsToUpper side
  if ¬ (Tri.idxList.any (fun i => (t.get i).name == vertex)) then
    .error .unknownVertex
  else
    match Tri.idxList.filter (fun i => (t.get i).name != vertex) with
    | [i, j] => .ok (i, j)
    | _ => .error .malformedSide

/-- `Triangle.#getPointsByAdjacentVertex`. -/
def getIdxsByAdjacentVertex (t : Tri) (side : String) : Except JsErr (Fin 3 × Fin 3) :=
  let vertexes := nameSegs side.data
  if vertexes.length ≠ 2 then .error .malformedSide
  else
    match Tri.idxList.filter (fun i => vertexes.contains (t.get i).name) with
    | [i, j] => .ok (i, j)
    | _ => .error .malformedSide

/-- `Triangle.#getPointsByName`. -/
def getIdxsByName (t : Tri) (side : String) : Except JsErr (Fin 3 × Fin 3) :=
  if hasLowerAZ side then getIdxsByOppositeVertex t side else getIdxsByAdjacentVertex t side

/-- `Math.sqrt(Math.pow(p2.x - p1.x, 2) + Math.pow(p2.y - p1.y, 2))`. -/
def distPts (p q : Pt) : JNum := jsqrt (jadd (jsq (jsub q.x p.x)) (jsq (jsub q.y p.y)))

/-- `Triangle.getSideLength`. -/
def getSideLength (t : Tri) (name : String) : Except JsErr JNum :=
  match getIdxsByName t name with
  | .error e => .error e
  | .ok (i, j) => .ok (distPts (t.get i) (t.get j))

/-- One entry of the merged `options` array of `#checkAndMergeSides`. -/
structure SOpt where
  name : String
  length : JNum
  i : Fin 3
  j : Fin 3

open Classical in
/-- `Triangle.#checkAndMergeSides`.  The requested sides arrive as an
association list in `for...in` iteration order (a JS object literal cannot
hold duplicate keys, so the pair's own value is the `sides[key]` lookup). -/
def checkAndMergeSides (t : Tri) : List (String × JNum) → List SOpt → Except JsErr (List SOpt)
  | [], acc => .ok acc
  | (key, len) :: rest, acc =>
    match getIdxsByName t key with
    | .error e => .error e
    | .ok (i, j) =>
      match acc.find? (fun o => (o.i == i && o.j == j) || (o.j == i && o.i == j)) with
      | some o =>
        if jneq o.length len then .error .conflict else checkAndMergeSides t rest acc
      | none => checkAndMergeSides t rest (acc ++ [⟨key, len, i, j⟩])

open Classical in
/-- `Triangle.#alcutePoint`: the two-circle intersection with
orientation-preserving candidate selection. -/
def alcutePoint (vertex : Pt) (d1 : JNum) (pt1 : Pt) (d2 : JNum) (pt2 : Pt) : JNum × JNum :=
  let x1 := pt1.x
  let y1 := pt1.y
  let x2 := pt2.x
  let y2 := pt2.y
  let distance := jsqrt (jadd (jsq (jsub x2 x1)) (jsq (jsub y2 y1)))
  let a := jdiv (jadd (jsub (jsq d1) (jsq d2)) (jsq distance)) (jmul (some 2) distance)
  let h := jsqrt (jsub (jsq d1) (jsq a))
  let dx := jdiv (jsub x2 x1) distance
  let dy := jdiv (jsub y2 y1) distance
  let ix := jadd x1 (jmul a dx)
  let iy := jadd y1 (jmul a dy)
  let px1 := jadd ix (jmul h dy)
  let py1 := jsub iy (jmul h dx)
  let px2 := jsub ix (jmul h dy)
  let py2 := jadd iy (jmul h dx)
  let crossProduct :=
    jsub (jmul (jsub x2 x1) (jsub py1 y1)) (jmul (jsub y2 y1) (jsub px1 x1))
  let crossProductVertex :=
    jsub (jmul (jsub x2 x1) (jsub vertex.y y1)) (jmul (jsub y2 y1) (jsub vertex.x x1))
  if jgt (jmul crossProduct crossProductVertex) (some 0) then (px1, py1) else (px2, py2)

/-- The array index left over once `i` and `j` are taken
(`points.find(p => p !== p1 && p !== p2)`). -/
def otherIdx (i j : Fin 3) : Fin 3 :=
  (Tri.idxList.filter (fun k => k != i && k != j)).headD 0

open Classical in
/-- `Triangle.#setOneSideLength`.  An `.error (e, t)` result carries the
vertex set as it stood when the corresponding JS `throw` fired. -/
def setOneSideLength (t : Tri) (o : SOpt) : Except (JsErr × Tri) Tri :=
  match getSideLength t (jsToLower (t.get o.i).name) with
  | .error e => .error (e, t)
  | .ok l1 =>
    match getSideLength t (jsToLower (t.get o.j).name) with
    | .error e => .error (e, t)
    | .ok l2 =>
      match jsSort3 o.length l1 l2 with
      | (mn, md, mx) =>
        if jle (jadd mn md) mx then .error (.degenerate, t)
        else
          let p1 := t.get o.i
          let p2 := t.get o.j
          let swap := jgt (jor (jsub p1.x p2.x) (jsub p2.y p1.y)) (some 0)
          let fi : Fin 3 := if swap then o.j else o.i
          let si : Fin 3 := if swap then o.i else o.j
          let fixed := t.get fi
          let slided := t.get si
          let d := jsqrt (jadd (jsq (jsub p1.x p2.x)) (jsq (jsub p1.y p2.y)))
          let dx := jdiv (jsub slided.x fixed.x) d
          let dy := jdiv (jsub slided.y fixed.y) d
          let t1 := t.set si
            { slided with x := jadd fixed.x (jmul dx o.length),
                          y := jadd fixed.y (jmul dy o.length) }
          let k := otherIdx o.i o.j
          let r := alcutePoint (t1.get k) l1 (t1.get o.j) l2 (t1.get o.i)
          .ok (t1.set k { t1.get k with x := r.1, y := r.2 })

open Classical in
/-- `Triangle.#setTwoSidesLength`. -/
def setTwoSidesLength (t : Tri) (o1 o2 : SOpt) : Except (JsErr × Tri) Tri :=
  let publicIdx : Fin 3 := if o1.i = o2.i ∨ o1.i = o2.j then o1.i else o1.j
  let oppositeSide := jsToLower (t.get publicIdx).name
  match getSideLength t oppositeSide with
  | .error e => .error (e, t)
  | .ok length3 =>
    match jsSort3 length3 o1.length o2.length with
    | (mn, md, mx) =>
      if jle (jadd mn md) mx then .error (.degenerate, t)
      else
        let q1 := t.get (if o1.i = publicIdx then o1.j else o1.i)
        let q2 := t.get (if o2.i = publicIdx then o2.j else o2.i)
        let r := alcutePoint (t.get publicIdx) o1.length q1 o2.length q2
        .ok (t.set publicIdx { t.get publicIdx with x := r.1, y := r.2 })

/-- The comparator `(p1, p2) => p1.x - p2.x || p2.y - p1.y`. -/
def cmpFixed (p q : Pt) : JNum := jor (jsub p.x q.x) (jsub q.y p.y)

open Classical in
/-- First element of `points.slice().sort(cmpFixed)`: the first minimal
point under the comparator — which is what the JS sort yields whenever the
comparator is consistent, i.e. whenever the coordinates are numeric, as
they are on every path a theorem below takes through this code. -/
def fixedIdx (t : Tri) : Fin 3 :=
  let b1 : Fin 3 := if jlt (cmpFixed (t.get 1) (t.get 0)) (some 0) then 1 else 0
  if jlt (cmpFixed (t.get 2) (t.get b1)) (some 0) then 2 else b1

/-- The comparator `(p1, p2) => p2.y - p1.y || p2.x - p1.x`. -/
def cmpSlided (p q : Pt) : JNum := jor (jsub q.y p.y) (jsub q.x p.x)

open Classical in
/-- First element of `points.filter(p => p !== fixed).sort(cmpSlided)`
(same consistent-comparator reading as `fixedIdx`). -/
def slidedIdx (t : Tri) (fi : Fin 3) : Fin 3 :=
  match Tri.idxList.filter (fun k => k != fi) with
  | [u, v] => if jgt (cmpSlided (t.get u) (t.get v)) (some 0) then v else u
  | _ => 0

open Classical in
/-- `Triangle.#setAllSidesLength`.  The `findIndex` miss (`options[-1]`,
impossible for three distinct physical edges) would crash JS before any
coordinate is written; it is modelled as an immediate error. -/
def setAllSidesLength (t : Tri) (o1 o2 o3 : SOpt) : Except (JsErr × Tri) Tri :=
  match jsSort3 o1.length o2.length o3.length with
  | (mn, md, mx) =>
    if jle (jadd mn md) mx then .error (.degenerate, t)
    else
      let fi := fixedIdx t
      let si := slidedIdx t fi
      let hit := fun (o : SOpt) => (o.i == fi && o.j == si) || (o.i == si && o.j == fi)
      match (if hit o1 then some (o1, o2, o3)
             else if hit o2 then some (o2, o1, o3)
             else if hit o3 then some (o3, o1, o2) else none) with
      | none => .error (.malformedSide, t)
      | some (o, r1, r2) =>
        let fixed := t.get fi
        let slided := t.get si
        let d := jsqrt (jadd (jsq (jsub slided.x fixed.x)) (jsq (jsub slided.y fixed.y)))
        let dx := jdiv (jsub slided.x fixed.x) d
        let dy := jdiv (jsub slided.y fixed.y) d
        let t1 := t.set si
          { slided with x := jadd fixed.x (jmul dx o.length),
                        y := jadd fixed.y (jmul dy o.length) }
        let mi := otherIdx fi si
        let a1 := t1.get (if r1.i == mi then r1.j else r1.i)
        let a2 := t1.get (if r2.i == mi then r2.j else r2.i)
        let r := alcutePoint (t1.get mi) r1.length a1 r2.length a2
        .ok (t1.set mi { t1.get mi with x := r.1, y := r.2 })

/-- `Triangle.setSideLength`.  The JS `switch` has no default branch: zero
options (an empty map) fall through with no mutation. -/
def setSideLength (t : Tri) (sides : List (String × JNum)) : Except (JsErr × Tri) Tri :=
  match checkAndMergeSides t sides [] with
  | .error e => .error (e, t)
  | .ok [o] => setOneSideLength t o
  | .ok [o1, o2] => setTwoSidesLength t o1 o2
  | .ok [o1, o2, o3] => setAllSidesLength t o1 o2 o3
  | .ok _ => .ok t

def Pt.translate (p : Pt) (dx dy : JNum) : Pt :=
  { p with x := jadd p.x dx, y := jadd p.y dy }

/-- `Triangle.move`. -/
def move (t : Tri) (dx dy : JNum) : Tri :=
  ⟨t.p0.translate dx dy, t.p1.translate dx dy, t.p2.translate dx dy⟩

/-- `Triangle.movePoint`. -/
def movePoint (t : Tri) (name : String) (dx dy : JNum) : Except (JsErr × Tri) Tri :=
  match Tri.idxList.find? (fun i => (t.get i).name == name) with
  | none => .error (.unknownVertex, t)
  | some i => .ok (t.set i ((t.get i).translate dx dy))

def centroidX (t : Tri) : JNum := jdiv (jadd (jadd t.p0.x t.p1.x) t.p2.x) (some 3)

def centroidY (t : Tri) : JNum := jdiv (jadd (jadd t.p0.y t.p1.y) t.p2.y) (some 3)

/-- `Triangle.scale`: `p ↦ center + (p - center) * (factor - 1)`, exactly
as written in the source. -/
def scale (t : Tri) (factor : JNum) : Tri :=
  let cx := centroidX t
  let cy := centroidY t
  let f := fun (p : Pt) =>
    { p with x := jadd cx (jmul (jsub p.x cx) (jsub factor (some 1))),
             y := jadd cy (jmul (jsub p.y cy) (jsub factor (some 1))) }
  ⟨f t.p0, f t.p1, f t.p2⟩

/-- The reflection axis `ax + by + c = 0`. -/
structure Line where
  a : JNum
  b : JNum
  c : JNum

/-- `Triangle.flip`: the point-line reflection formula applied to every
vertex, with no check of any kind on the line. -/
def Tri.flip (t : Tri) (l : Line) : Tri :=
  let f := fun (p : Pt) =>
    let x := p.x
    let y := p.y
    let denominator := jadd (jmul l.a l.a) (jmul l.b l.b)
    let x1 := jdiv (jsub (jsub (jmul (jmul l.b l.b) x) (jmul (jmul l.a l.b) y))
      (jmul l.a l.c)) denominator
    let y1 := jdiv (jsub (jsub (jmul (jmul l.a l.a) y) (jmul (jmul l.a l.b) x))
      (jmul l.b l.c)) denominator
    { p with x := jsub (jmul (some 2) x1) x, y := jsub (jmul (some 2) y1) y }
  ⟨f t.p0, f t.p1, f t.p2⟩

open Classical in
/-- One step of the `20 - point.x > deltaX` accumulation the constructors
run before returning, to push the triangle inside the drawing margin. -/
def marginStep (d coord : JNum) : JNum :=
  if jgt (jsub (some 20) coord) d then jsub (some 20) coord else d

def marginDeltaX (t : Tri) : JNum :=
  marginStep (marginStep (marginStep (some 0) t.p0.x) t.p1.x) t.p2.x

def marginDeltaY (t : Tri) : JNum :=
  marginStep (marginStep (marginStep (some 0) t.p0.y) t.p1.y) t.p2.y

/-- `Triangle.fromSSS`: build the default triangle, route the three lengths
through `setSideLength` keyed by the lowercase vertex names, then translate
to the margin; on error the fresh SVG node is removed and the error is
rethrown (no triangle escapes). -/
def fromSSS (length1 length2 length3 : JNum) (name : String) : Except JsErr Tri :=
  match createDefaultTrianglePoints name with
  | .error e => .error e
  | .ok t =>
    match setSideLength t
      [(jsToLower t.p0.name, length1), (jsToLower t.p1.name, length2),
       (jsToLower t.p2.name, length3)] with
    | .error (e, _) => .error e
    | .ok t1 => .ok (move t1 (marginDeltaX t1) (marginDeltaY t1))

open Classical in
/-- `Triangle.fromASA`. -/
def fromASA (angle1 length angle2 : JNum) (name : String) : Except JsErr Tri :=
  match createDefaultTrianglePoints name with
  | .error e => .error e
  | .ok t =>
    if jle angle1 (some 0) ∨ jle (some 180) angle1 then .error .invalidAngle
    else if jle angle2 (some 0) ∨ jle (some 180) angle2 then .error .invalidAngle
    else if jle (some 180) (jadd angle1 angle2) then .error .invalidAngle
    else if jle length (some 0) then .error .invalidLength
    else
      let t1 := t.set 2 { t.p2 with x := jadd t.p1.x length, y := t.p1.y }
      let rateAB := jcos (jdiv (jmul angle1 jpi) (some 180))
      let rateAC := jcos (jdiv (jmul angle2 jpi) (some 180))
      let ax := jadd t1.p1.x (jdiv (jmul length rateAB) (jadd rateAB rateAC))
      let ay := jsub t1.p1.y
        (jdiv (jmul length (jsin (jdiv (jmul angle1 jpi) (some 180)))) (jadd rateAB rateAC))
      let t2 := t1.set 0 { t1.p0 with x := ax, y := ay }
      .ok (move t2 (marginDeltaX t2) (marginDeltaY t2))

open Classical in
/-- `Triangle.fromHL`: both length checks fire before the triangle is even
constructed. -/
def fromHL (hypotenuse leg : JNum) (name : String) : Except JsErr Tri :=
  if jle leg (some 0) then .error .invalidLength
  else if jle hypotenuse leg then .error .invalidLength
  else
    match createDefaultTrianglePoints name with
    | .error e => .error e
    | .ok t =>
      let t1 := t.set 2 { t.p2 with x := jadd t.p1.x leg, y := t.p1.y }
      let t2 := t1.set 0
        { t1.p0 with x := t1.p1.x,
                     y := jsub t1.p1.y (jsqrt (jsub (jsq hypotenuse) (jsq leg))) }
      .ok (move t2 (marginDeltaX t2) (marginDeltaY t2))

/-- The signed cross product that says on which side of the directed line
`p1 → p2` the third vertex `p0` lies. -/
def crossThird (t : Tri) : JNum :=
  jsub (jmul (jsub t.p2.x t.p1.x) (jsub t.p0.y t.p1.y))
       (jmul (jsub t.p2.y t.p1.y) (jsub t.p0.x t.p1.x))

/-! ### Shared concrete vertex sets and helper lemmas -/

/-- A vertex set with arbitrary finite coordinates and arbitrary names. -/
def triN (xa ya xb yb xc yc : ℝ) (na nb nc : String) : Tri :=
  ⟨{ x := some xa, y := some ya, name := na },
   { x := some xb, y := some yb, name := nb },
   { x := some xc, y := some yc, name := nc }⟩

/-- A vertex set with arbitrary finite coordinates, named `A`, `B`, `C`. -/
def triABC (xa ya xb yb xc yc : ℝ) : Tri := triN xa ya xb yb xc yc "A" "B" "C"

/-- The triangle the default constructor builds for the name `ABC`. -/
def defaultTri : Tri := triABC 70 20 20 120 120 120

theorem createDefault_ABC : createDefaultTrianglePoints "ABC" = .ok defaultTri := rfl

theorem setOneSideLength_error (t : Tri) (o : SOpt) (e : JsErr) (t2 : Tri)
    (h : setOneSideLength t o = .error (e, t2)) : t2 = t := by
  unfold setOneSideLength at h
  simp only [] at h
  iterate 9 (all_goals try split at h)
  all_goals simp_all

theorem setTwoSidesLength_error (t : Tri) (o1 o2 : SOpt) (e : JsErr) (t2 : Tri)
    (h : setTwoSidesLength t o1 o2 = .error (e, t2)) : t2 = t := by
  unfold setTwoSidesLength at h
  simp only [] at h
  iterate 9 (all_goals try split at h)
  all_goals simp_all

theorem setAllSidesLength_error (t : Tri) (o1 o2 o3 : SOpt) (e : JsErr) (t2 : Tri)
    (h : setAllSidesLength t o1 o2 o3 = .error (e, t2)) : t2 = t := by
  unfold setAllSidesLength at h
  simp only [] at h
  iterate 9 (all_goals try split at h)
  all_goals simp_all

/-- Claim C3: `setSideLength` is atomic on failure — for every input mapping
(any arity) and every starting vertex set, if the call ends in an error
(malformed side name, unknown vertex, conflicting constraint, or a failed
triangle-inequality check), the vertex set at the moment of the throw — the
state the caller observes — is exactly the starting one: every check of
every arity fires before the first coordinate write. -/
theorem c3_setSideLength_atomic (t : Tri) (sides : List (String × JNum)) (e : JsErr)
    (t2 : Tri) (h : setSideLength t sides = .error (e, t2)) : t2 = t := by
  unfold setSideLength at h
  split at h
  · simp_all
  · exact setOneSideLength_error _ _ _ _ h
  · exact setTwoSidesLength_error _ _ _ _ _ h
  · exact setAllSidesLength_error _ _ _ _ _ _ h
  · simp_all

/-- Witness for C3 at a concrete failing call: side token `q` names no
vertex of the default triangle, the call errors, and the observed state is
the untouched starting one. -/
theorem c3_setSideLength_atomic_witness :
    setSideLength defaultTri [("q", some 5)] = .error (.unknownVertex, defaultTri) ∧
      defaultTri = defaultTri :=
  ⟨rfl, c3_setSideLength_atomic defaultTri [("q", some 5)] .unknownVertex defaultTri rfl⟩

/-! ### C2 / C6: the non-validating mutators -/

/-- Claim C2 (amended): `movePoint` and `scale` perform no invariant
validation at all.  `movePoint` on an existing vertex always succeeds and
writes the translated coordinate unconditionally, and `scale(1)` — the
literal `centroid + (p - centroid) * (factor - 1)` formula — maps all three
vertices to the centroid, leaving a collinear (degenerate) vertex set with
zero cross product; only `setSideLength` and the constructors validate
before mutating. -/
theorem c2_movePoint_scale_unvalidated (xa ya xb yb xc yc : ℝ) (na nb nc : String)
    (dx dy : ℝ) :
    movePoint (triN xa ya xb yb xc yc na nb nc) na (some dx) (some dy) =
      .ok (triN (xa + dx) (ya + dy) xb yb xc yc na nb nc) ∧
    scale (triN xa ya xb yb xc yc na nb nc) (some 1) =
      triN ((xa + xb + xc) / 3) ((ya + yb + yc) / 3) ((xa + xb + xc) / 3)
        ((ya + yb + yc) / 3) ((xa + xb + xc) / 3) ((ya + yb + yc) / 3) na nb nc ∧
    crossThird (scale (triN xa ya xb yb xc yc na nb nc) (some 1)) = some 0 := by
  refine ⟨?_, ?_, ?_⟩
  · simp [movePoint, triN, Tri.idxList, List.find?, Pt.translate]
  · simp [scale, centroidX, centroidY, triN, jdiv_some_of_ne _ (three_ne_zero),
      Tri.get, Tri.set]
  · simp [scale, centroidX, centroidY, triN, crossThird,
      jdiv_some_of_ne _ (three_ne_zero), Tri.get, Tri.set]

/-- Counterexample to claim C2 as stated: on the default triangle,
`movePoint("A", 0, 100)` succeeds (no failure), changes the state, and
leaves the three vertices collinear — the core invariant is violated by a
successful operation. -/
theorem c2_counterexample_movePoint_degenerate :
    movePoint defaultTri "A" (some 0) (some 100) =
      .ok (triN 70 120 20 120 120 120 "A" "B" "C") ∧
    crossThird (triN 70 120 20 120 120 120 "A" "B" "C") = some 0 ∧
    triN 70 120 20 120 120 120 "A" "B" "C" ≠ defaultTri := by
  refine ⟨?_, ?_, ?_⟩
  · simp [movePoint, defaultTri, triABC, triN, Tri.idxList, List.find?, Pt.translate]
    norm_num
  · simp [crossThird, triN]
  · intro h
    have h2 := congrArg (fun t : Tri => t.p0.y) h
    simp [triN, defaultTri, triABC] at h2

/-- Claim C6 (amended): with the source's displacement formula
`centroid + (p - centroid) * (factor - 1)`, the identity transform is
`scale(2)`, not `scale(1)`: `scale(2)` leaves all three vertex coordinates
unchanged for every triangle. -/
theorem c6_scale_two_is_identity (xa ya xb yb xc yc : ℝ) (na nb nc : String) :
    scale (triN xa ya xb yb xc yc na nb nc) (some 2) = triN xa ya xb yb xc yc na nb nc := by
  simp [scale, centroidX, centroidY, triN, jdiv_some_of_ne _ (three_ne_zero),
    Tri.get, Tri.set]
  norm_num

/-- Counterexample to claim C6 as stated: `scale(1)` on the default triangle
does not leave the coordinates unchanged — it sends every vertex to the
centroid `(70, 260/3)`. -/
theorem c6_counterexample_scale_one :
    scale defaultTri (some 1) =
      triN 70 (260 / 3) 70 (260 / 3) 70 (260 / 3) "A" "B" "C" ∧
    scale defaultTri (some 1) ≠ defaultTri := by
  constructor
  · simp [scale, centroidX, centroidY, defaultTri, triABC, triN,
      jdiv_some_of_ne _ (three_ne_zero), Tri.get, Tri.set]
    norm_num
  · intro h
    have h2 := congrArg (fun t : Tri => t.p0.y) h
    simp [scale, centroidX, centroidY, defaultTri, triABC, triN,
      jdiv_some_of_ne _ (three_ne_zero)] at h2
    norm_num at h2

/-! ### C7: reflection -/

/-- Claim C7 (amended): `flip` applies the point-line reflection formula
unconditionally, with no degenerate-axis check.  Whenever the axis
coefficients are not both zero, every vertex is mapped to its mirror image
across `ax + by + c = 0` — the image's midpoint with the original lies on
the line and the displacement is parallel to the line's normal `(a, b)`,
which characterises the mirror image. -/
theorem c7_flip_mirror_image (a b c : ℝ) (hab : a ≠ 0 ∨ b ≠ 0) (xa ya xb yb xc yc : ℝ)
    (na nb nc : String) :
    ∃ xa2 ya2 xb2 yb2 xc2 yc2 : ℝ,
      Tri.flip (triN xa ya xb yb xc yc na nb nc) ⟨some a, some b, some c⟩ =
        triN xa2 ya2 xb2 yb2 xc2 yc2 na nb nc ∧
      (a * ((xa + xa2) / 2) + b * ((ya + ya2) / 2) + c = 0 ∧
        (xa2 - xa) * b = (ya2 - ya) * a) ∧
      (a * ((xb + xb2) / 2) + b * ((yb + yb2) / 2) + c = 0 ∧
        (xb2 - xb) * b = (yb2 - yb) * a) ∧
      (a * ((xc + xc2) / 2) + b * ((yc + yc2) / 2) + c = 0 ∧
        (xc2 - xc) * b = (yc2 - yc) * a) := by
  have hD : a * a + b * b ≠ 0 := by
    intro hz
    have ha2 : a * a = 0 := by nlinarith [mul_self_nonneg a, mul_self_nonneg b]
    have hb2 : b * b = 0 := by nlinarith [mul_self_nonneg a, mul_self_nonneg b]
    rcases hab with h | h
    · exact h (mul_self_eq_zero.mp ha2)
    · exact h (mul_self_eq_zero.mp hb2)
  refine ⟨2 * ((b * b * xa - a * b * ya - a * c) / (a * a + b * b)) - xa,
          2 * ((a * a * ya - a * b * xa - b * c) / (a * a + b * b)) - ya,
          2 * ((b * b * xb - a * b * yb - a * c) / (a * a + b * b)) - xb,
          2 * ((a * a * yb - a * b * xb - b * c) / (a * a + b * b)) - yb,
          2 * ((b * b * xc - a * b * yc - a * c) / (a * a + b * b)) - xc,
          2 * ((a * a * yc - a * b * xc - b * c) / (a * a + b * b)) - yc, ?_, ?_, ?_, ?_⟩
  · simp [Tri.flip, triN, jdiv_some_of_ne _ hD]
  all_goals constructor
  all_goals field_simp
  all_goals ring

/-- Witness for C7: the mirror across the axis `x = 0` (`a = 1`, `b = 0`,
`c = 0`) of the default triangle. -/
theorem c7_flip_mirror_image_witness :
    ((1 : ℝ) ≠ 0 ∨ (0 : ℝ) ≠ 0) ∧
    (∃ xa2 ya2 xb2 yb2 xc2 yc2 : ℝ,
      Tri.flip (triN 70 20 20 120 120 120 "A" "B" "C") ⟨some 1, some 0, some 0⟩ =
        triN xa2 ya2 xb2 yb2 xc2 yc2 "A" "B" "C" ∧
      (1 * ((70 + xa2) / 2) + 0 * ((20 + ya2) / 2) + 0 = 0 ∧
        (xa2 - 70) * 0 = (ya2 - 20) * 1) ∧
      (1 * ((20 + xb2) / 2) + 0 * ((120 + yb2) / 2) + 0 = 0 ∧
        (xb2 - 20) * 0 = (yb2 - 120) * 1) ∧
      (1 * ((120 + xc2) / 2) + 0 * ((120 + yc2) / 2) + 0 = 0 ∧
        (xc2 - 120) * 0 = (yc2 - 120) * 1)) :=
  ⟨Or.inl one_ne_zero,
    c7_flip_mirror_image 1 0 0 (Or.inl one_ne_zero) 70 20 20 120 120 120 "A" "B" "C"⟩

/-- Counterexample to claim C7 as stated: with `a = b = 0` the code raises
no error at all — the `0/0` division turns every vertex coordinate into
NaN, so the vertex set is corrupted rather than left unchanged. -/
theorem c7_counterexample_zero_axis :
    Tri.flip defaultTri ⟨some 0, some 0, some 0⟩ =
      ⟨{ x := none, y := none, name := "A" },
       { x := none, y := none, name := "B" },
       { x := none, y := none, name := "C" }⟩ ∧
    Tri.flip defaultTri ⟨some 0, some 0, some 0⟩ ≠ defaultTri := by
  constructor
  · simp [Tri.flip, defaultTri, triABC, triN]
  · intro h
    have h2 := congrArg (fun t : Tri => t.p0.x) h
    simp [Tri.flip, defaultTri, triABC, triN] at h2

/-! ### C9: the HL constructor -/

/-- Side-length and right-angle facts for the vertex layout `fromHL`
produces, stated for an arbitrary final translation offset `(u, v)` (the
margin move shifts all three vertices equally, so the offsets cancel in
every distance). -/
theorem c9_side_facts (h l u v : ℝ) (hl : 0 < l) (hlh : l < h) :
    getSideLength (triN (20 + u) (120 - Real.sqrt (h * h - l * l) + v) (20 + u) (120 + v)
        (20 + l + u) (120 + v) "A" "B" "C") "BC" = .ok (some l) ∧
    getSideLength (triN (20 + u) (120 - Real.sqrt (h * h - l * l) + v) (20 + u) (120 + v)
        (20 + l + u) (120 + v) "A" "B" "C") "AB" =
      .ok (some (Real.sqrt (h * h - l * l))) ∧
    getSideLength (triN (20 + u) (120 - Real.sqrt (h * h - l * l) + v) (20 + u) (120 + v)
        (20 + l + u) (120 + v) "A" "B" "C") "AC" = .ok (some h) := by
  set s := Real.sqrt (h * h - l * l) with hs
  have hh : 0 < h := hl.trans hlh
  have hrad : 0 ≤ h * h - l * l := by nlinarith
  have hs2 : s * s = h * h - l * l := Real.mul_self_sqrt hrad
  have hsnn : 0 ≤ s := Real.sqrt_nonneg _
  refine ⟨?_, ?_, ?_⟩
  · show Except.ok (distPts _ _) = _
    simp only [triN, distPts, Tri.get_zero, Tri.get_one, Tri.get_two, jsub_some, jsq_some,
      jadd_some]
    rw [show (20 + l + u - (20 + u)) * (20 + l + u - (20 + u)) +
        (120 + v - (120 + v)) * (120 + v - (120 + v)) = l * l by ring,
      jsqrt_some_of_nonneg (by positivity), Real.sqrt_mul_self hl.le]
  · show Except.ok (distPts _ _) = _
    simp only [triN, distPts, Tri.get_zero, Tri.get_one, Tri.get_two, jsub_some, jsq_some,
      jadd_some]
    rw [show (20 + u - (20 + u)) * (20 + u - (20 + u)) +
        (120 + v - (120 - s + v)) * (120 + v - (120 - s + v)) = s * s by ring,
      jsqrt_some_of_nonneg (by positivity), Real.sqrt_mul_self hsnn]
  · show Except.ok (distPts _ _) = _
    simp only [triN, distPts, Tri.get_zero, Tri.get_one, Tri.get_two, jsub_some, jsq_some,
      jadd_some]
    rw [show (20 + l + u - (20 + u)) * (20 + l + u - (20 + u)) +
        (120 + v - (120 - s + v)) * (120 + v - (120 - s + v)) = l * l + s * s by ring,
      hs2, show l * l + (h * h - l * l) = h * h by ring,
      jsqrt_some_of_nonneg (by positivity), Real.sqrt_mul_self hh.le]

/-- Claim C9: `fromHL(hypotenuse, leg)` fails with `InvalidLength` whenever
`leg ≤ 0` or `hypotenuse ≤ leg` (the boundary `hypotenuse = leg` included);
for `0 < leg < hypotenuse` it succeeds and yields a triangle with
`|BC| = leg`, `|AB| = sqrt(hypotenuse² - leg²)`, `|AC| = hypotenuse`, and a
right angle at `B` (the dot product of the two edge vectors at `B` is
zero). -/
theorem c9_fromHL (hyp l : ℝ) :
    (l ≤ 0 → fromHL (some hyp) (some l) "ABC" = .error .invalidLength) ∧
    (0 < l → hyp ≤ l → fromHL (some hyp) (some l) "ABC" = .error .invalidLength) ∧
    (0 < l → l < hyp → ∃ t' : Tri,
      fromHL (some hyp) (some l) "ABC" = .ok t' ∧
      getSideLength t' "BC" = .ok (some l) ∧
      getSideLength t' "AB" = .ok (some (Real.sqrt (hyp * hyp - l * l))) ∧
      getSideLength t' "AC" = .ok (some hyp) ∧
      jadd (jmul (jsub t'.p0.x t'.p1.x) (jsub t'.p2.x t'.p1.x))
        (jmul (jsub t'.p0.y t'.p1.y) (jsub t'.p2.y t'.p1.y)) = some 0) := by
  refine ⟨?_, ?_, ?_⟩
  · intro h0
    simp only [fromHL]
    rw [if_pos ((jle_some l 0).mpr h0)]
  · intro hl hyl
    simp only [fromHL]
    rw [if_neg (fun hc => absurd ((jle_some l 0).mp hc) (not_le.mpr hl)),
      if_pos ((jle_some hyp l).mpr hyl)]
  · intro hl hlh
    have hrad : 0 ≤ hyp * hyp - l * l := by nlinarith
    have hsnn : 0 ≤ Real.sqrt (hyp * hyp - l * l) := Real.sqrt_nonneg _
    have f20 : marginStep (some 0) (some (20 : ℝ)) = some 0 := by
      unfold marginStep
      rw [jsub_some]
      refine if_neg ?_
      rw [jgt_some]
      norm_num
    have f20l : marginStep (some 0) (some (20 + l)) = some 0 := by
      unfold marginStep
      rw [jsub_some]
      refine if_neg ?_
      rw [jgt_some]
      intro hc
      linarith
    by_cases hdel : (0 : ℝ) < 20 - (120 - Real.sqrt (hyp * hyp - l * l))
    · have e1 : marginStep (some 0) (some (120 - Real.sqrt (hyp * hyp - l * l))) =
          some (20 - (120 - Real.sqrt (hyp * hyp - l * l))) := by
        unfold marginStep
        rw [jsub_some]
        exact if_pos ((jgt_some _ _).mpr hdel)
      have e2 : marginStep (some (20 - (120 - Real.sqrt (hyp * hyp - l * l))))
          (some (120 : ℝ)) = some (20 - (120 - Real.sqrt (hyp * hyp - l * l))) := by
        unfold marginStep
        rw [jsub_some]
        refine if_neg ?_
        rw [jgt_some]
        intro hc
        linarith
      have hrun : fromHL (some hyp) (some l) "ABC" =
          .ok (triN (20 + 0) (120 - Real.sqrt (hyp * hyp - l * l) +
                (20 - (120 - Real.sqrt (hyp * hyp - l * l)))) (20 + 0)
              (120 + (20 - (120 - Real.sqrt (hyp * hyp - l * l)))) (20 + l + 0)
              (120 + (20 - (120 - Real.sqrt (hyp * hyp - l * l)))) "A" "B" "C") := by
        simp only [fromHL]
        rw [if_neg (fun hc => absurd ((jle_some l 0).mp hc) (not_le.mpr hl)),
          if_neg (fun hc => absurd ((jle_some hyp l).mp hc) (not_le.mpr hlh))]
        rw [createDefault_ABC]
        simp only [defaultTri, triABC, triN, Tri.set_two, Tri.set_zero, Tri.get_zero,
          Tri.get_one, Tri.get_two, jadd_some, jsq_some, jsub_some,
          jsqrt_some_of_nonneg hrad, marginDeltaX, marginDeltaY]
        rw [f20, f20, f20l, e1, e2, e2]
        simp only [move, Pt.translate, jadd_some]
      exact ⟨_, hrun, (c9_side_facts hyp l 0 _ hl hlh).1,
        (c9_side_facts hyp l 0 _ hl hlh).2.1, (c9_side_facts hyp l 0 _ hl hlh).2.2, by
          simp only [triN, jsub_some, jmul_some, jadd_some]
          rw [show (20 + 0 - (20 + 0)) * (20 + l + 0 - (20 + 0)) +
            (120 - Real.sqrt (hyp * hyp - l * l) +
                (20 - (120 - Real.sqrt (hyp * hyp - l * l))) -
              (120 + (20 - (120 - Real.sqrt (hyp * hyp - l * l))))) *
            (120 + (20 - (120 - Real.sqrt (hyp * hyp - l * l))) -
              (120 + (20 - (120 - Real.sqrt (hyp * hyp - l * l))))) = (0 : ℝ) by ring]⟩
    · have e1 : marginStep (some 0) (some (120 - Real.sqrt (hyp * hyp - l * l))) =
          some 0 := by
        unfold marginStep
        rw [jsub_some]
        exact if_neg (fun hc => hdel ((jgt_some _ _).mp hc))
      have e2 : marginStep (some (0 : ℝ)) (some (120 : ℝ)) = some 0 := by
        unfold marginStep
        rw [jsub_some]
        refine if_neg ?_
        rw [jgt_some]
        norm_num
      have hrun : fromHL (some hyp) (some l) "ABC" =
          .ok (triN (20 + 0) (120 - Real.sqrt (hyp * hyp - l * l) + 0) (20 + 0)
              (120 + 0) (20 + l + 0) (120 + 0) "A" "B" "C") := by
        simp only [fromHL]
        rw [if_neg (fun hc => absurd ((jle_some l 0).mp hc) (not_le.mpr hl)),
          if_neg (fun hc => absurd ((jle_some hyp l).mp hc) (not_le.mpr hlh))]
        rw [createDefault_ABC]
        simp only [defaultTri, triABC, triN, Tri.set_two, Tri.set_zero, Tri.get_zero,
          Tri.get_one, Tri.get_two, jadd_some, jsq_some, jsub_some,
          jsqrt_some_of_nonneg hrad, marginDeltaX, marginDeltaY]
        rw [f20, f20, f20l, e1, e2, e2]
        simp only [move, Pt.translate, jadd_some]
      exact ⟨_, hrun, (c9_side_facts hyp l 0 0 hl hlh).1,
        (c9_side_facts hyp l 0 0 hl hlh).2.1, (c9_side_facts hyp l 0 0 hl hlh).2.2, by
          simp only [triN, jsub_some, jmul_some, jadd_some]
          rw [show (20 + 0 - (20 + 0)) * (20 + l + 0 - (20 + 0)) +
            (120 - Real.sqrt (hyp * hyp - l * l) + 0 - (120 + 0)) *
            (120 + 0 - (120 + 0)) = (0 : ℝ) by ring]⟩

/-- Witness for C9 at the spec's concrete scenario `fromHL(10, 6)`: the
call succeeds and `getSideLength("AB")` is exactly `8`. -/
theorem c9_fromHL_witness :
    (0 : ℝ) < 6 ∧ (6 : ℝ) < 10 ∧
    (∃ t' : Tri, fromHL (some 10) (some 6) "ABC" = .ok t' ∧
      getSideLength t' "BC" = .ok (some 6) ∧
      getSideLength t' "AB" = .ok (some 8) ∧
      getSideLength t' "AC" = .ok (some 10) ∧
      jadd (jmul (jsub t'.p0.x t'.p1.x) (jsub t'.p2.x t'.p1.x))
        (jmul (jsub t'.p0.y t'.p1.y) (jsub t'.p2.y t'.p1.y)) = some 0) := by
  refine ⟨by norm_num, by norm_num, ?_⟩
  obtain ⟨t', h1, h2, h3, h4, h5⟩ := (c9_fromHL 10 6).2.2 (by norm_num) (by norm_num)
  have h8 : Real.sqrt (10 * 10 - 6 * 6 : ℝ) = 8 := by
    rw [show (10 * 10 - 6 * 6 : ℝ) = 8 ^ 2 by norm_num,
      Real.sqrt_sq (by norm_num : (0 : ℝ) ≤ 8)]
  rw [h8] at h3
  exact ⟨t', h1, h2, h3, h4, h5⟩

/-! ### C10: the default constructor -/

/-- Claim C10: for every name string whose `[A-Z][^A-Z]*` segmentation has
exactly three segments, the default constructor places the vertices at
exactly `(70, 20)`, `(20, 120)`, `(120, 120)`; the resulting triangle is
isosceles (both slanted sides have length `sqrt 12500`, the base has length
`100`), satisfies the strict triangle inequality, and is not equilateral. -/
theorem c10_default_constructor (name : String) (n1 n2 n3 : String)
    (h : nameSegs name.data = [n1, n2, n3]) :
    createDefaultTrianglePoints name = .ok (triN 70 20 20 120 120 120 n1 n2 n3) ∧
    distPts (triN 70 20 20 120 120 120 n1 n2 n3).p0 (triN 70 20 20 120 120 120 n1 n2 n3).p1 =
      some (Real.sqrt 12500) ∧
    distPts (triN 70 20 20 120 120 120 n1 n2 n3).p0 (triN 70 20 20 120 120 120 n1 n2 n3).p2 =
      some (Real.sqrt 12500) ∧
    distPts (triN 70 20 20 120 120 120 n1 n2 n3).p1 (triN 70 20 20 120 120 120 n1 n2 n3).p2 =
      some 100 ∧
    Real.sqrt 12500 + Real.sqrt 12500 > 100 ∧
    Real.sqrt 12500 + 100 > Real.sqrt 12500 ∧
    (100 : ℝ) + Real.sqrt 12500 > Real.sqrt 12500 ∧
    Real.sqrt 12500 ≠ 100 := by
  have hsq : Real.sqrt 12500 ^ 2 = 12500 := Real.sq_sqrt (by norm_num)
  have hnn : 0 ≤ Real.sqrt 12500 := Real.sqrt_nonneg _
  refine ⟨?_, ?_, ?_, ?_, ?_, ?_, ?_, ?_⟩
  · simp only [createDefaultTrianglePoints, h]
    rfl
  · simp only [triN, distPts, jsub_some, jsq_some, jadd_some]
    norm_num
    exact jsqrt_some_of_nonneg (by norm_num)
  · simp only [triN, distPts, jsub_some, jsq_some, jadd_some]
    norm_num
    exact jsqrt_some_of_nonneg (by norm_num)
  · simp only [triN, distPts, jsub_some, jsq_some, jadd_some]
    rw [show ((120 : ℝ) - 20) * (120 - 20) + (120 - 120) * (120 - 120) = 10000 by norm_num,
      jsqrt_some_of_nonneg (by norm_num : (0 : ℝ) ≤ 10000),
      show Real.sqrt 10000 = 100 by
        rw [show (10000 : ℝ) = 100 ^ 2 by norm_num,
          Real.sqrt_sq (by norm_num : (0 : ℝ) ≤ 100)]]
  · nlinarith
  · nlinarith
  · nlinarith
  · intro hcontra
    rw [hcontra] at hsq
    norm_num at hsq

/-- Witness for C10 at the name `ABC`. -/
theorem c10_default_constructor_witness :
    nameSegs "ABC".data = ["A", "B", "C"] ∧
    (createDefaultTrianglePoints "ABC" = .ok (triN 70 20 20 120 120 120 "A" "B" "C") ∧
      distPts (triN 70 20 20 120 120 120 "A" "B" "C").p0
        (triN 70 20 20 120 120 120 "A" "B" "C").p1 = some (Real.sqrt 12500) ∧
      distPts (triN 70 20 20 120 120 120 "A" "B" "C").p0
        (triN 70 20 20 120 120 120 "A" "B" "C").p2 = some (Real.sqrt 12500) ∧
      distPts (triN 70 20 20 120 120 120 "A" "B" "C").p1
        (triN 70 20 20 120 120 120 "A" "B" "C").p2 = some 100 ∧
      Real.sqrt 12500 + Real.sqrt 12500 > 100 ∧
      Real.sqrt 12500 + 100 > Real.sqrt 12500 ∧
      (100 : ℝ) + Real.sqrt 12500 > Real.sqrt 12500 ∧
      Real.sqrt 12500 ≠ 100) :=
  ⟨by decide, c10_default_constructor "ABC" "A" "B" "C" (by decide)⟩

/-! ### C1: the degenerate-triple check of `fromSSS` -/

theorem jsToString_two : jsToString (some (2 : ℝ)) = "2" := by
  rw [show ((2 : ℝ)) = ((2 : ℕ) : ℝ) by norm_num, jsToString_natCast]
  decide

theorem jsToString_ten : jsToString (some (10 : ℝ)) = "10" := by
  rw [show ((10 : ℝ)) = ((10 : ℕ) : ℝ) by norm_num, jsToString_natCast]
  decide

/-- The default sort compares the strings `"2"`, `"2"`, `"10"`, and
`"10" < "2"` in code-unit order, so the sorted positions are
`min = 10`, `mid = 2`, `max = 2`. -/
theorem jsSort3_two_two_ten :
    jsSort3 (some 2) (some 2) (some 10) = (some 10, some 2, some 2) := by
  unfold jsSort3 jsStrLt
  rw [jsToString_two, jsToString_ten,
    (by decide : strLtb "2".data "2".data = false),
    (by decide : strLtb "10".data "2".data = true)]
  simp

theorem sqrt_ten_thousand : Real.sqrt 10000 = 100 := by
  rw [show (10000 : ℝ) = 100 ^ 2 by norm_num, Real.sqrt_sq (by norm_num : (0:ℝ) ≤ 100)]

theorem sqrt_four : Real.sqrt 4 = 2 := by
  rw [show (4 : ℝ) = 2 ^ 2 by norm_num, Real.sqrt_sq (by norm_num : (0:ℝ) ≤ 2)]

theorem fixedIdx_defaultTri : fixedIdx defaultTri = 1 := by
  norm_num [fixedIdx, cmpFixed, defaultTri, triABC, triN, jor, jtruthy, jlt]

theorem slidedIdx_defaultTri : slidedIdx defaultTri 1 = 2 := by
  unfold slidedIdx
  rw [show List.filter (fun k => k != (1 : Fin 3)) Tri.idxList = [0, 2] from rfl]
  norm_num [cmpSlided, defaultTri, triABC, triN, jor, jtruthy, jgt, jlt]

theorem checkAndMergeSides_sss :
    checkAndMergeSides defaultTri [("a", some 2), ("b", some 2), ("c", some 10)] [] =
    .ok [⟨"a", some 2, 1, 2⟩, ⟨"b", some 2, 0, 2⟩, ⟨"c", some 10, 0, 1⟩] := rfl

set_option maxHeartbeats 1600000 in
/-- The three-edge update with lengths `(2, 2, 10)` passes the (string-
sorted) inequality check, slides `C` to distance `2` from `B`, and then the
impossible two-circle intersection (`h = sqrt(4 - 529)`) turns both of
`A`'s coordinates into NaN — with no error thrown. -/
theorem setAllSidesLength_sss_degenerate :
    setAllSidesLength defaultTri ⟨"a", some 2, 1, 2⟩ ⟨"b", some 2, 0, 2⟩
    ⟨"c", some 10, 0, 1⟩ =
    .ok ⟨{ x := none, y := none, name := "A" },
         { x := some 20, y := some 120, name := "B" },
         { x := some 22, y := some 120, name := "C" }⟩ := by
  unfold setAllSidesLength
  rw [jsSort3_two_two_ten]
  dsimp only
  rw [if_neg (by rw [jadd_some, jle_some]; norm_num)]
  rw [fixedIdx_defaultTri, slidedIdx_defaultTri]
  norm_num [show otherIdx 1 2 = (0 : Fin 3) from rfl, defaultTri, triABC, triN,
    Tri.get, Tri.set, alcutePoint, jsqrt, jdiv, sqrt_ten_thousand, sqrt_four]

/-- Claim C1 at its stated failing input: `(2, 2, 10)` violates the strict
triangle inequality (`2 + 2 ≤ 10`), yet `fromSSS(2, 2, 10, "ABC")` throws
nothing and returns a triangle — with vertex `A`'s coordinates NaN — because
the inequality check sorts the lengths with the default (string) sort,
which orders them `[10, 2, 2]` and then tests `10 + 2 <= 2`. -/
theorem c1_fromSSS_accepts_degenerate :
    (2 : ℝ) + 2 ≤ 10 ∧
    fromSSS (some 2) (some 2) (some 10) "ABC" =
      .ok ⟨{ x := none, y := none, name := "A" },
           { x := some 20, y := some 120, name := "B" },
           { x := some 22, y := some 120, name := "C" }⟩ := by
  refine ⟨by norm_num, ?_⟩
  unfold fromSSS
  rw [createDefault_ABC]
  dsimp only
  rw [show (jsToLower defaultTri.p0.name) = "a" from rfl,
    show (jsToLower defaultTri.p1.name) = "b" from rfl,
    show (jsToLower defaultTri.p2.name) = "c" from rfl]
  rw [show setSideLength defaultTri [("a", some 2), ("b", some 2), ("c", some 10)] =
      .ok ⟨{ x := none, y := none, name := "A" },
           { x := some 20, y := some 120, name := "B" },
           { x := some 22, y := some 120, name := "C" }⟩ by
    unfold setSideLength
    rw [checkAndMergeSides_sss]
    exact setAllSidesLength_sss_degenerate]
  norm_num [move, Pt.translate, marginDeltaX, marginDeltaY, marginStep, jgt, jlt]


/-! ### C8: the ASA constructor -/

theorem marginStep_zero_skip {c : ℝ} (h : ¬ ((0:ℝ) < 20 - c)) :
    marginStep (some 0) (some c) = some 0 := by
  unfold marginStep
  rw [jsub_some]
  exact if_neg (fun hc => h ((jgt_some _ _).mp hc))

/-- Claim C8 at a failing input: `fromASA(30, 1, 60, "ABC")` succeeds, but
the interior angle at vertex `C` of the returned triangle is not the
requested `angle2 = 60`.  If that angle were `60`, its cosine would be
`1/2`, forcing `(2 (CB . CA))^2 = |CB|^2 |CA|^2`; the returned coordinates
violate that equation (the actual angle is `45`).  Only for equal base
angles does the source's `cos B / (cos B + cos C)` placement produce the
documented angles. -/
theorem c8_fromASA_wrong_angle_at_C :
    ∃ t' : Tri, fromASA (some 30) (some 1) (some 60) "ABC" = .ok t' ∧
    ∃ xa ya xb yb xc yc : ℝ,
      t' = triN xa ya xb yb xc yc "A" "B" "C" ∧
      (2 * ((xb - xc) * (xa - xc) + (yb - yc) * (ya - yc))) ^ 2 ≠
        ((xb - xc) ^ 2 + (yb - yc) ^ 2) * ((xa - xc) ^ 2 + (ya - yc) ^ 2) := by
  have hs3 : Real.sqrt 3 ^ 2 = 3 := Real.sq_sqrt (by norm_num)
  have hs3nn : 0 ≤ Real.sqrt 3 := Real.sqrt_nonneg _
  have hD : Real.sqrt 3 / 2 + 1 / 2 ≠ 0 := by positivity
  have hDpos : 0 < Real.sqrt 3 / 2 + 1 / 2 := by positivity
  have hcos30 : Real.cos (30 * Real.pi / 180) = Real.sqrt 3 / 2 := by
    rw [show (30 : ℝ) * Real.pi / 180 = Real.pi / 6 by ring, Real.cos_pi_div_six]
  have hsin30 : Real.sin (30 * Real.pi / 180) = 1 / 2 := by
    rw [show (30 : ℝ) * Real.pi / 180 = Real.pi / 6 by ring, Real.sin_pi_div_six]
  have hcos60 : Real.cos (60 * Real.pi / 180) = 1 / 2 := by
    rw [show (60 : ℝ) * Real.pi / 180 = Real.pi / 3 by ring, Real.cos_pi_div_three]
  have hq1 : (0 : ℝ) ≤ 1 * (Real.sqrt 3 / 2) / (Real.sqrt 3 / 2 + 1 / 2) := by positivity
  have hq2 : 1 * (1 / 2) / (Real.sqrt 3 / 2 + 1 / 2) ≤ 1 := by
    rw [div_le_one hDpos]
    linarith
  have hrun : fromASA (some 30) (some 1) (some 60) "ABC" =
      .ok (triN (20 + 1 * (Real.sqrt 3 / 2) / (Real.sqrt 3 / 2 + 1 / 2) + 0)
        (120 - 1 * (1 / 2) / (Real.sqrt 3 / 2 + 1 / 2) + 0)
        (20 + 0) (120 + 0) (20 + 1 + 0) (120 + 0) "A" "B" "C") := by
    unfold fromASA
    rw [createDefault_ABC]
    dsimp only
    rw [if_neg (by rw [jle_some, jle_some]; norm_num),
      if_neg (by rw [jle_some, jle_some]; norm_num)]
    rw [if_neg (by rw [jadd_some, jle_some]; norm_num)]
    rw [if_neg (by rw [jle_some]; norm_num)]
    simp only [defaultTri, triABC, triN, Tri.set_zero, Tri.set_two, Tri.get_zero,
      Tri.get_one, Tri.get_two, jpi, jmul_some, jadd_some,
      jdiv_some_of_ne _ (by norm_num : (180 : ℝ) ≠ 0), jcos_some, jsin_some,
      hcos30, hsin30, hcos60, jdiv_some_of_ne _ hD, jsub_some]
    simp only [marginDeltaX, marginDeltaY]
    rw [marginStep_zero_skip (by intro hc; nlinarith),
      marginStep_zero_skip (by norm_num),
      marginStep_zero_skip (by norm_num),
      marginStep_zero_skip (by intro hc; nlinarith),
      marginStep_zero_skip (by norm_num),
      marginStep_zero_skip (by norm_num)]
    simp only [move, Pt.translate, triN, jadd_some]
  refine ⟨_, hrun, _, _, _, _, _, _, rfl, ?_⟩
  field_simp
  intro hcontra
  nlinarith [hs3, hDpos]


/-! ### C4 / C5: the single-edge resolver -/

set_option maxHeartbeats 1600000 in
/-- Contract of the two-circle intersector `#alcutePoint`: with anchor
points at distance `dd > 0`, target radii `d1`, `d2` forming a strict
triangle with `dd`, and a reference vertex off the anchor line, it returns
a point at exactly the two requested distances whose signed cross product
against the (directed) anchor line has the same strict sign as the
reference vertex's. -/
theorem alcutePoint_spec (vx vy x1 y1 x2 y2 d1 d2 dd : ℝ) (n0 n1 n2 : String)
    (hdd : Real.sqrt ((x2 - x1) * (x2 - x1) + (y2 - y1) * (y2 - y1)) = dd)
    (hddpos : 0 < dd)
    (hd1 : 0 ≤ d1) (hd2 : 0 ≤ d2)
    (h1 : dd < d1 + d2) (h2 : d1 < dd + d2) (h3 : d2 < dd + d1)
    (hcpv : (x2 - x1) * (vy - y1) - (y2 - y1) * (vx - x1) ≠ 0) :
    ∃ X Y : ℝ,
      alcutePoint ⟨some vx, some vy, n0⟩ (some d1) ⟨some x1, some y1, n1⟩ (some d2)
        ⟨some x2, some y2, n2⟩ = (some X, some Y) ∧
      (X - x1) * (X - x1) + (Y - y1) * (Y - y1) = d1 * d1 ∧
      (X - x2) * (X - x2) + (Y - y2) * (Y - y2) = d2 * d2 ∧
      0 < ((x2 - x1) * (Y - y1) - (y2 - y1) * (X - x1)) *
        ((x2 - x1) * (vy - y1) - (y2 - y1) * (vx - x1)) := by
  classical
  have hddne : dd ≠ 0 := ne_of_gt hddpos
  have hSnn : (0:ℝ) ≤ (x2 - x1) * (x2 - x1) + (y2 - y1) * (y2 - y1) :=
    add_nonneg (mul_self_nonneg _) (mul_self_nonneg _)
  have hS : (x2 - x1) * (x2 - x1) + (y2 - y1) * (y2 - y1) = dd * dd := by
    rw [← hdd]
    exact (Real.mul_self_sqrt hSnn).symm
  obtain ⟨aa, haadef⟩ : ∃ a : ℝ, a = (d1 * d1 - d2 * d2 + dd * dd) / (2 * dd) := ⟨_, rfl⟩
  have haa : aa * (2 * dd) = d1 * d1 - d2 * d2 + dd * dd := by
    rw [haadef]
    field_simp
  have f1 : 0 < d1 + dd + d2 := by linarith
  have f2 : 0 < d1 + dd - d2 := by linarith
  have f3 : 0 < d2 + d1 - dd := by linarith
  have f4 : 0 < d2 - d1 + dd := by linarith
  have hprod : 0 < (d1 + dd + d2) * (d1 + dd - d2) * (d2 + d1 - dd) * (d2 - d1 + dd) :=
    mul_pos (mul_pos (mul_pos f1 f2) f3) f4
  have key : 4 * dd * dd * (d1 * d1 - aa * aa) =
      (d1 + dd + d2) * (d1 + dd - d2) * (d2 + d1 - dd) * (d2 - d1 + dd) := by
    linear_combination (-(aa * (2 * dd) + (d1 * d1 - d2 * d2 + dd * dd))) * haa
  have hrad : 0 < d1 * d1 - aa * aa := by
    nlinarith [key, hprod, mul_pos hddpos hddpos]
  obtain ⟨hh, hhdef⟩ : ∃ h : ℝ, h = Real.sqrt (d1 * d1 - aa * aa) := ⟨_, rfl⟩
  have hhpos : 0 < hh := by
    rw [hhdef]
    exact Real.sqrt_pos.mpr hrad
  have hh2 : hh * hh = d1 * d1 - aa * aa := by
    rw [hhdef]
    exact Real.mul_self_sqrt hrad.le
  obtain ⟨ux, huxdef⟩ : ∃ u : ℝ, u = (x2 - x1) / dd := ⟨_, rfl⟩
  obtain ⟨uy, huydef⟩ : ∃ u : ℝ, u = (y2 - y1) / dd := ⟨_, rfl⟩
  have hux : dd * ux = x2 - x1 := by
    rw [huxdef]
    field_simp
  have huy : dd * uy = y2 - y1 := by
    rw [huydef]
    field_simp
  have huxy : ux * ux + uy * uy = 1 := by
    rw [huxdef, huydef]
    field_simp
    linear_combination hS
  have e0 : jsqrt (some ((x2 - x1) * (x2 - x1) + (y2 - y1) * (y2 - y1))) = some dd := by
    rw [jsqrt_some_of_nonneg hSnn, hdd]
  have e1 : jdiv (some (d1 * d1 - d2 * d2 + dd * dd)) (some (2 * dd)) = some aa := by
    rw [jdiv_some_of_ne _ (mul_ne_zero two_ne_zero hddne), haadef]
  have e2 : jsqrt (some (d1 * d1 - aa * aa)) = some hh := by
    rw [jsqrt_some_of_nonneg hrad.le, hhdef]
  have e3 : jdiv (some (x2 - x1)) (some dd) = some ux := by
    rw [jdiv_some_of_ne _ hddne, huxdef]
  have e4 : jdiv (some (y2 - y1)) (some dd) = some uy := by
    rw [jdiv_some_of_ne _ hddne, huydef]
  have hcp : (x2 - x1) * (y1 + aa * uy - hh * ux - y1) -
      (y2 - y1) * (x1 + aa * ux + hh * uy - x1) = -(hh * dd) := by
    rw [← hux, ← huy]
    linear_combination (-(hh * dd)) * huxy
  have heval : alcutePoint ⟨some vx, some vy, n0⟩ (some d1) ⟨some x1, some y1, n1⟩
      (some d2) ⟨some x2, some y2, n2⟩ =
      if jgt (some (((x2 - x1) * (y1 + aa * uy - hh * ux - y1) -
          (y2 - y1) * (x1 + aa * ux + hh * uy - x1)) *
          ((x2 - x1) * (vy - y1) - (y2 - y1) * (vx - x1)))) (some 0) then
        (some (x1 + aa * ux + hh * uy), some (y1 + aa * uy - hh * ux))
      else
        (some (x1 + aa * ux - hh * uy), some (y1 + aa * uy + hh * ux)) := by
    unfold alcutePoint
    simp only [jsub_some, jsq_some, jadd_some]
    rw [e0]
    simp only [jsq_some, jsub_some, jadd_some, jmul_some]
    rw [e1, e3, e4]
    simp only [jsq_some, jsub_some]
    rw [e2]
    simp only [jmul_some, jadd_some, jsub_some]
  rw [heval]
  rcases hcpv.lt_or_lt with hneg | hpos
  · rw [if_pos (show jgt (some _) (some (0:ℝ)) from
      (jgt_some _ _).mpr (by rw [hcp]; nlinarith [mul_pos hhpos hddpos]))]
    refine ⟨x1 + aa * ux + hh * uy, y1 + aa * uy - hh * ux, rfl, ?_, ?_, ?_⟩
    · calc (x1 + aa * ux + hh * uy - x1) * (x1 + aa * ux + hh * uy - x1) +
          (y1 + aa * uy - hh * ux - y1) * (y1 + aa * uy - hh * ux - y1) =
          (aa * aa + hh * hh) * (ux * ux + uy * uy) := by ring
        _ = d1 * d1 := by rw [huxy, hh2]; ring
    · have hX : x1 + aa * ux + hh * uy - x2 = (aa - dd) * ux + hh * uy := by
        rw [show x2 = x1 + dd * ux by rw [hux]; ring]
        ring
      have hY : y1 + aa * uy - hh * ux - y2 = (aa - dd) * uy - hh * ux := by
        rw [show y2 = y1 + dd * uy by rw [huy]; ring]
        ring
      rw [hX, hY]
      calc ((aa - dd) * ux + hh * uy) * ((aa - dd) * ux + hh * uy) +
          ((aa - dd) * uy - hh * ux) * ((aa - dd) * uy - hh * ux) =
          ((aa - dd) * (aa - dd) + hh * hh) * (ux * ux + uy * uy) := by ring
        _ = d2 * d2 := by rw [huxy, hh2]; linear_combination (-1) * haa
    · rw [hcp]
      nlinarith [mul_pos hhpos hddpos]
  · rw [if_neg (fun hc => by
      have hgt := (jgt_some _ _).mp hc
      rw [hcp] at hgt
      nlinarith [mul_pos hhpos hddpos])]
    refine ⟨x1 + aa * ux - hh * uy, y1 + aa * uy + hh * ux, rfl, ?_, ?_, ?_⟩
    · calc (x1 + aa * ux - hh * uy - x1) * (x1 + aa * ux - hh * uy - x1) +
          (y1 + aa * uy + hh * ux - y1) * (y1 + aa * uy + hh * ux - y1) =
          (aa * aa + hh * hh) * (ux * ux + uy * uy) := by ring
        _ = d1 * d1 := by rw [huxy, hh2]; ring
    · have hX : x1 + aa * ux - hh * uy - x2 = (aa - dd) * ux - hh * uy := by
        rw [show x2 = x1 + dd * ux by rw [hux]; ring]
        ring
      have hY : y1 + aa * uy + hh * ux - y2 = (aa - dd) * uy + hh * ux := by
        rw [show y2 = y1 + dd * uy by rw [huy]; ring]
        ring
      rw [hX, hY]
      calc ((aa - dd) * ux - hh * uy) * ((aa - dd) * ux - hh * uy) +
          ((aa - dd) * uy + hh * ux) * ((aa - dd) * uy + hh * ux) =
          ((aa - dd) * (aa - dd) + hh * hh) * (ux * ux + uy * uy) := by ring
        _ = d2 * d2 := by rw [huxy, hh2]; linear_combination (-1) * haa
    · have hcross : (x2 - x1) * (y1 + aa * uy + hh * ux - y1) -
          (y2 - y1) * (x1 + aa * ux - hh * uy - x1) = hh * dd := by
        rw [← hux, ← huy]
        linear_combination (hh * dd) * huxy
      rw [hcross]
      nlinarith [mul_pos hhpos hddpos]

set_option maxHeartbeats 3200000 in
/-- Full run of `setSideLength {a: L}` when the tie-break keeps `B` fixed
and slides `C`: the third vertex is relocated by the two-circle intersector
at its original distances from both (possibly moved) endpoints, and the
orientation sign is preserved. -/
theorem setOne_fixedB (xa ya xb yb xc yc L : ℝ)
    (hcross : (xc - xb) * (ya - yb) - (yc - yb) * (xa - xb) ≠ 0)
    (hL : 0 < L)
    (hi1 : L < Real.sqrt ((xc - xa) * (xc - xa) + (yc - ya) * (yc - ya)) +
      Real.sqrt ((xb - xa) * (xb - xa) + (yb - ya) * (yb - ya)))
    (hi2 : Real.sqrt ((xc - xa) * (xc - xa) + (yc - ya) * (yc - ya)) <
      L + Real.sqrt ((xb - xa) * (xb - xa) + (yb - ya) * (yb - ya)))
    (hi3 : Real.sqrt ((xb - xa) * (xb - xa) + (yb - ya) * (yb - ya)) <
      L + Real.sqrt ((xc - xa) * (xc - xa) + (yc - ya) * (yc - ya)))
    (hswap : ¬ jgt (jor (jsub (some xb) (some xc)) (jsub (some yc) (some yb))) (some 0)) :
    ∃ X Y xb2 yb2 xc2 yc2 : ℝ,
      setSideLength (triABC xa ya xb yb xc yc) [("a", some L)] =
        .ok (triABC X Y xb2 yb2 xc2 yc2) ∧
      (xc2 - xb2) * (xc2 - xb2) + (yc2 - yb2) * (yc2 - yb2) = L * L ∧
      (X - xb2) * (X - xb2) + (Y - yb2) * (Y - yb2) =
        Real.sqrt ((xb - xa) * (xb - xa) + (yb - ya) * (yb - ya)) *
        Real.sqrt ((xb - xa) * (xb - xa) + (yb - ya) * (yb - ya)) ∧
      (X - xc2) * (X - xc2) + (Y - yc2) * (Y - yc2) =
        Real.sqrt ((xc - xa) * (xc - xa) + (yc - ya) * (yc - ya)) *
        Real.sqrt ((xc - xa) * (xc - xa) + (yc - ya) * (yc - ya)) ∧
      0 < ((xc2 - xb2) * (Y - yb2) - (yc2 - yb2) * (X - xb2)) *
        ((xc - xb) * (ya - yb) - (yc - yb) * (xa - xb)) := by
  classical
  obtain ⟨lac, hlacdef⟩ : ∃ v : ℝ,
      v = Real.sqrt ((xc - xa) * (xc - xa) + (yc - ya) * (yc - ya)) := ⟨_, rfl⟩
  obtain ⟨lab, hlabdef⟩ : ∃ v : ℝ,
      v = Real.sqrt ((xb - xa) * (xb - xa) + (yb - ya) * (yb - ya)) := ⟨_, rfl⟩
  rw [← hlacdef, ← hlabdef] at hi1 hi2 hi3
  have hlacnn : 0 ≤ lac := hlacdef ▸ Real.sqrt_nonneg _
  have hlabnn : 0 ≤ lab := hlabdef ▸ Real.sqrt_nonneg _
  have hSBCnn : (0:ℝ) ≤ (xb - xc) * (xb - xc) + (yb - yc) * (yb - yc) :=
    add_nonneg (mul_self_nonneg _) (mul_self_nonneg _)
  have hSBCpos : (0:ℝ) < (xb - xc) * (xb - xc) + (yb - yc) * (yb - yc) := by
    rcases hSBCnn.lt_or_eq with h | h
    · exact h
    · exfalso
      have h1 : (xb - xc) * (xb - xc) = 0 := by
        nlinarith [mul_self_nonneg (xb - xc), mul_self_nonneg (yb - yc)]
      have h2 : (yb - yc) * (yb - yc) = 0 := by
        nlinarith [mul_self_nonneg (xb - xc), mul_self_nonneg (yb - yc)]
      have e1 : xb - xc = 0 := mul_self_eq_zero.mp h1
      have e2 : yb - yc = 0 := mul_self_eq_zero.mp h2
      apply hcross
      linear_combination (-(ya - yb)) * e1 + (xa - xb) * e2
  obtain ⟨dBC, hdBCdef⟩ : ∃ v : ℝ,
      v = Real.sqrt ((xb - xc) * (xb - xc) + (yb - yc) * (yb - yc)) := ⟨_, rfl⟩
  have hdBCpos : 0 < dBC := hdBCdef ▸ Real.sqrt_pos.mpr hSBCpos
  have hdBC2 : dBC * dBC = (xb - xc) * (xb - xc) + (yb - yc) * (yb - yc) := by
    rw [hdBCdef]
    exact Real.mul_self_sqrt hSBCnn
  have hdBCne : dBC ≠ 0 := ne_of_gt hdBCpos
  -- the sorted check passes whatever permutation the string sort picks
  obtain ⟨mn, md, mx, hperm, hnot⟩ : ∃ mn md mx : JNum,
      jsSort3 (some L) (some lac) (some lab) = (mn, md, mx) ∧
      ¬ jle (jadd mn md) mx := by
    rcases jsSort3_perm (some L) (some lac) (some lab) with h | h | h | h | h | h <;>
      exact ⟨_, _, _, h, by simp only [jadd_some, jle_some]; push_neg; linarith⟩
  -- coordinates of the slid point C
  obtain ⟨cxp, hcxp⟩ : ∃ v : ℝ, v = xb + (xc - xb) / dBC * L := ⟨_, rfl⟩
  obtain ⟨cyp, hcyp⟩ : ∃ v : ℝ, v = yb + (yc - yb) / dBC * L := ⟨_, rfl⟩
  have hinner : (xb - cxp) * (xb - cxp) + (yb - cyp) * (yb - cyp) = L * L := by
    rw [hcxp, hcyp]
    field_simp
    linear_combination (-(L * L)) * hdBC2
  have hdd : Real.sqrt ((xb - cxp) * (xb - cxp) + (yb - cyp) * (yb - cyp)) = L := by
    rw [hinner]
    exact Real.sqrt_mul_self hL.le
  have hcpveq : (xb - cxp) * (ya - cyp) - (yb - cyp) * (xa - cxp) =
      -(L / dBC) * ((xc - xb) * (ya - yb) - (yc - yb) * (xa - xb)) := by
    rw [hcxp, hcyp]
    field_simp
    ring
  have hcpv : (xb - cxp) * (ya - cyp) - (yb - cyp) * (xa - cxp) ≠ 0 := by
    rw [hcpveq]
    exact mul_ne_zero (neg_ne_zero.mpr (div_ne_zero hL.ne' hdBCne)) hcross
  obtain ⟨X, Y, hXY, hD1, hD2, hCS⟩ :=
    alcutePoint_spec xa ya cxp cyp xb yb lac lab L "A" "C" "B" hdd hL hlacnn hlabnn
      hi1 hi2 hi3 hcpv
  have hgb : getSideLength ⟨{ x := some xa, y := some ya, name := "A" },
      { x := some xb, y := some yb, name := "B" },
      { x := some xc, y := some yc, name := "C" }⟩ "b" = .ok (some lac) := by
    show Except.ok (distPts _ _) = _
    simp only [distPts, Tri.get_zero, Tri.get_two, jsub_some, jsq_some, jadd_some]
    rw [jsqrt_some_of_nonneg (add_nonneg (mul_self_nonneg _) (mul_self_nonneg _)),
      ← hlacdef]
  have hgc : getSideLength ⟨{ x := some xa, y := some ya, name := "A" },
      { x := some xb, y := some yb, name := "B" },
      { x := some xc, y := some yc, name := "C" }⟩ "c" = .ok (some lab) := by
    show Except.ok (distPts _ _) = _
    simp only [distPts, Tri.get_zero, Tri.get_one, jsub_some, jsq_some, jadd_some]
    rw [jsqrt_some_of_nonneg (add_nonneg (mul_self_nonneg _) (mul_self_nonneg _)),
      ← hlabdef]
  have hdj : jsqrt (jadd (jsq (jsub (some xb) (some xc))) (jsq (jsub (some yb) (some yc)))) =
      some dBC := by
    simp only [jsub_some, jsq_some, jadd_some]
    rw [jsqrt_some_of_nonneg hSBCnn, ← hdBCdef]
  refine ⟨X, Y, xb, yb, cxp, cyp, ?_, ?_, ?_, ?_, ?_⟩
  · unfold setSideLength
    rw [show checkAndMergeSides (triABC xa ya xb yb xc yc) [("a", some L)] [] =
      .ok [⟨"a", some L, 1, 2⟩] from rfl]
    dsimp only
    unfold setOneSideLength
    dsimp only [triABC, triN, Tri.get_one, Tri.get_two]
    rw [show jsToLower "B" = "b" from rfl, show jsToLower "C" = "c" from rfl]
    rw [hgb]
    dsimp only
    rw [hgc]
    dsimp only
    rw [hperm]
    dsimp only
    rw [if_neg hnot]
    simp only [if_neg hswap]
    dsimp only [Tri.set_two, Tri.get_zero, Tri.get_one, Tri.get_two]
    rw [hdj]
    simp only [jsub_some, jdiv_some_of_ne _ hdBCne, jmul_some, jadd_some]
    rw [show xb + (xc - xb) / dBC * L = cxp from hcxp.symm,
      show yb + (yc - yb) / dBC * L = cyp from hcyp.symm]
    rw [show otherIdx (1 : Fin 3) 2 = (0 : Fin 3) from rfl]
    dsimp only [Tri.set_zero, Tri.get_zero, Tri.get_one, Tri.get_two]
    rw [hXY]
  · linear_combination hinner
  · rw [← hlabdef]
    linear_combination hD2
  · rw [← hlacdef]
    linear_combination hD1
  · have hrel : (xb - cxp) * (Y - cyp) - (yb - cyp) * (X - cxp) =
        -((cxp - xb) * (Y - yb) - (cyp - yb) * (X - xb)) := by ring
    rw [hrel, hcpveq] at hCS
    nlinarith [hCS, div_pos hL hdBCpos]

set_option maxHeartbeats 3200000 in
/-- As `setOne_fixedB`, for the branch where the tie-break keeps `C` fixed
and slides `B`. -/
theorem setOne_fixedC (xa ya xb yb xc yc L : ℝ)
    (hcross : (xc - xb) * (ya - yb) - (yc - yb) * (xa - xb) ≠ 0)
    (hL : 0 < L)
    (hi1 : L < Real.sqrt ((xc - xa) * (xc - xa) + (yc - ya) * (yc - ya)) +
      Real.sqrt ((xb - xa) * (xb - xa) + (yb - ya) * (yb - ya)))
    (hi2 : Real.sqrt ((xc - xa) * (xc - xa) + (yc - ya) * (yc - ya)) <
      L + Real.sqrt ((xb - xa) * (xb - xa) + (yb - ya) * (yb - ya)))
    (hi3 : Real.sqrt ((xb - xa) * (xb - xa) + (yb - ya) * (yb - ya)) <
      L + Real.sqrt ((xc - xa) * (xc - xa) + (yc - ya) * (yc - ya)))
    (hswap : jgt (jor (jsub (some xb) (some xc)) (jsub (some yc) (some yb))) (some 0)) :
    ∃ X Y xb2 yb2 xc2 yc2 : ℝ,
      setSideLength (triABC xa ya xb yb xc yc) [("a", some L)] =
        .ok (triABC X Y xb2 yb2 xc2 yc2) ∧
      (xc2 - xb2) * (xc2 - xb2) + (yc2 - yb2) * (yc2 - yb2) = L * L ∧
      (X - xb2) * (X - xb2) + (Y - yb2) * (Y - yb2) =
        Real.sqrt ((xb - xa) * (xb - xa) + (yb - ya) * (yb - ya)) *
        Real.sqrt ((xb - xa) * (xb - xa) + (yb - ya) * (yb - ya)) ∧
      (X - xc2) * (X - xc2) + (Y - yc2) * (Y - yc2) =
        Real.sqrt ((xc - xa) * (xc - xa) + (yc - ya) * (yc - ya)) *
        Real.sqrt ((xc - xa) * (xc - xa) + (yc - ya) * (yc - ya)) ∧
      0 < ((xc2 - xb2) * (Y - yb2) - (yc2 - yb2) * (X - xb2)) *
        ((xc - xb) * (ya - yb) - (yc - yb) * (xa - xb)) := by
  classical
  obtain ⟨lac, hlacdef⟩ : ∃ v : ℝ,
      v = Real.sqrt ((xc - xa) * (xc - xa) + (yc - ya) * (yc - ya)) := ⟨_, rfl⟩
  obtain ⟨lab, hlabdef⟩ : ∃ v : ℝ,
      v = Real.sqrt ((xb - xa) * (xb - xa) + (yb - ya) * (yb - ya)) := ⟨_, rfl⟩
  rw [← hlacdef, ← hlabdef] at hi1 hi2 hi3
  have hlacnn : 0 ≤ lac := hlacdef ▸ Real.sqrt_nonneg _
  have hlabnn : 0 ≤ lab := hlabdef ▸ Real.sqrt_nonneg _
  have hSBCnn : (0:ℝ) ≤ (xb - xc) * (xb - xc) + (yb - yc) * (yb - yc) :=
    add_nonneg (mul_self_nonneg _) (mul_self_nonneg _)
  have hSBCpos : (0:ℝ) < (xb - xc) * (xb - xc) + (yb - yc) * (yb - yc) := by
    rcases hSBCnn.lt_or_eq with h | h
    · exact h
    · exfalso
      have h1 : (xb - xc) * (xb - xc) = 0 := by
        nlinarith [mul_self_nonneg (xb - xc), mul_self_nonneg (yb - yc)]
      have h2 : (yb - yc) * (yb - yc) = 0 := by
        nlinarith [mul_self_nonneg (xb - xc), mul_self_nonneg (yb - yc)]
      have e1 : xb - xc = 0 := mul_self_eq_zero.mp h1
      have e2 : yb - yc = 0 := mul_self_eq_zero.mp h2
      apply hcross
      linear_combination (-(ya - yb)) * e1 + (xa - xb) * e2
  obtain ⟨dBC, hdBCdef⟩ : ∃ v : ℝ,
      v = Real.sqrt ((xb - xc) * (xb - xc) + (yb - yc) * (yb - yc)) := ⟨_, rfl⟩
  have hdBCpos : 0 < dBC := hdBCdef ▸ Real.sqrt_pos.mpr hSBCpos
  have hdBC2 : dBC * dBC = (xb - xc) * (xb - xc) + (yb - yc) * (yb - yc) := by
    rw [hdBCdef]
    exact Real.mul_self_sqrt hSBCnn
  have hdBCne : dBC ≠ 0 := ne_of_gt hdBCpos
  obtain ⟨mn, md, mx, hperm, hnot⟩ : ∃ mn md mx : JNum,
      jsSort3 (some L) (some lac) (some lab) = (mn, md, mx) ∧
      ¬ jle (jadd mn md) mx := by
    rcases jsSort3_perm (some L) (some lac) (some lab) with h | h | h | h | h | h <;>
      exact ⟨_, _, _, h, by simp only [jadd_some, jle_some]; push_neg; linarith⟩
  obtain ⟨bxp, hbxp⟩ : ∃ v : ℝ, v = xc + (xb - xc) / dBC * L := ⟨_, rfl⟩
  obtain ⟨byp, hbyp⟩ : ∃ v : ℝ, v = yc + (yb - yc) / dBC * L := ⟨_, rfl⟩
  have hinner : (bxp - xc) * (bxp - xc) + (byp - yc) * (byp - yc) = L * L := by
    rw [hbxp, hbyp]
    field_simp
    linear_combination (-(L * L)) * hdBC2
  have hdd : Real.sqrt ((bxp - xc) * (bxp - xc) + (byp - yc) * (byp - yc)) = L := by
    rw [hinner]
    exact Real.sqrt_mul_self hL.le
  have hcpveq : (bxp - xc) * (ya - yc) - (byp - yc) * (xa - xc) =
      -(L / dBC) * ((xc - xb) * (ya - yb) - (yc - yb) * (xa - xb)) := by
    rw [hbxp, hbyp]
    field_simp
    ring
  have hcpv : (bxp - xc) * (ya - yc) - (byp - yc) * (xa - xc) ≠ 0 := by
    rw [hcpveq]
    exact mul_ne_zero (neg_ne_zero.mpr (div_ne_zero hL.ne' hdBCne)) hcross
  obtain ⟨X, Y, hXY, hD1, hD2, hCS⟩ :=
    alcutePoint_spec xa ya xc yc bxp byp lac lab L "A" "C" "B" hdd hL hlacnn hlabnn
      hi1 hi2 hi3 hcpv
  have hgb : getSideLength ⟨{ x := some xa, y := some ya, name := "A" },
      { x := some xb, y := some yb, name := "B" },
      { x := some xc, y := some yc, name := "C" }⟩ "b" = .ok (some lac) := by
    show Except.ok (distPts _ _) = _
    simp only [distPts, Tri.get_zero, Tri.get_two, jsub_some, jsq_some, jadd_some]
    rw [jsqrt_some_of_nonneg (add_nonneg (mul_self_nonneg _) (mul_self_nonneg _)),
      ← hlacdef]
  have hgc : getSideLength ⟨{ x := some xa, y := some ya, name := "A" },
      { x := some xb, y := some yb, name := "B" },
      { x := some xc, y := some yc, name := "C" }⟩ "c" = .ok (some lab) := by
    show Except.ok (distPts _ _) = _
    simp only [distPts, Tri.get_zero, Tri.get_one, jsub_some, jsq_some, jadd_some]
    rw [jsqrt_some_of_nonneg (add_nonneg (mul_self_nonneg _) (mul_self_nonneg _)),
      ← hlabdef]
  have hdj : jsqrt (jadd (jsq (jsub (some xb) (some xc))) (jsq (jsub (some yb) (some yc)))) =
      some dBC := by
    simp only [jsub_some, jsq_some, jadd_some]
    rw [jsqrt_some_of_nonneg hSBCnn, ← hdBCdef]
  refine ⟨X, Y, bxp, byp, xc, yc, ?_, ?_, ?_, ?_, ?_⟩
  · unfold setSideLength
    rw [show checkAndMergeSides (triABC xa ya xb yb xc yc) [("a", some L)] [] =
      .ok [⟨"a", some L, 1, 2⟩] from rfl]
    dsimp only
    unfold setOneSideLength
    dsimp only [triABC, triN, Tri.get_one, Tri.get_two]
    rw [show jsToLower "B" = "b" from rfl, show jsToLower "C" = "c" from rfl]
    rw [hgb]
    dsimp only
    rw [hgc]
    dsimp only
    rw [hperm]
    dsimp only
    rw [if_neg hnot]
    simp only [if_pos hswap]
    dsimp only [Tri.set_one, Tri.get_zero, Tri.get_one, Tri.get_two]
    rw [hdj]
    simp only [jsub_some, jdiv_some_of_ne _ hdBCne, jmul_some, jadd_some]
    rw [show xc + (xb - xc) / dBC * L = bxp from hbxp.symm,
      show yc + (yb - yc) / dBC * L = byp from hbyp.symm]
    rw [show otherIdx (1 : Fin 3) 2 = (0 : Fin 3) from rfl]
    dsimp only [Tri.set_zero, Tri.get_zero, Tri.get_one, Tri.get_two]
    rw [hXY]
  · linear_combination hinner
  · rw [← hlabdef]
    linear_combination hD2
  · rw [← hlacdef]
    linear_combination hD1
  · have hrel : (bxp - xc) * (Y - yc) - (byp - yc) * (X - xc) =
        -((xc - bxp) * (Y - byp) - (yc - byp) * (X - bxp)) := by ring
    rw [hrel, hcpveq] at hCS
    nlinarith [hCS, div_pos hL hdBCpos]

/-- Full run of `setSideLength {a: L}` on an `A`,`B`,`C`-named triangle
with any finite coordinates: if the original triangle is nondegenerate,
`L > 0`, and `L` genuinely (numerically) satisfies the strict triangle
inequality together with the third vertex's current distances to the two
endpoints, the call succeeds; the new `BC` has squared length `L²`, the
third vertex keeps its original distances to both endpoints, and the signed
cross product keeps its strict sign. -/
theorem setOne_a_run (xa ya xb yb xc yc L : ℝ)
    (hcross : (xc - xb) * (ya - yb) - (yc - yb) * (xa - xb) ≠ 0)
    (hL : 0 < L)
    (hi1 : L < Real.sqrt ((xc - xa) * (xc - xa) + (yc - ya) * (yc - ya)) +
      Real.sqrt ((xb - xa) * (xb - xa) + (yb - ya) * (yb - ya)))
    (hi2 : Real.sqrt ((xc - xa) * (xc - xa) + (yc - ya) * (yc - ya)) <
      L + Real.sqrt ((xb - xa) * (xb - xa) + (yb - ya) * (yb - ya)))
    (hi3 : Real.sqrt ((xb - xa) * (xb - xa) + (yb - ya) * (yb - ya)) <
      L + Real.sqrt ((xc - xa) * (xc - xa) + (yc - ya) * (yc - ya))) :
    ∃ X Y xb2 yb2 xc2 yc2 : ℝ,
      setSideLength (triABC xa ya xb yb xc yc) [("a", some L)] =
        .ok (triABC X Y xb2 yb2 xc2 yc2) ∧
      (xc2 - xb2) * (xc2 - xb2) + (yc2 - yb2) * (yc2 - yb2) = L * L ∧
      (X - xb2) * (X - xb2) + (Y - yb2) * (Y - yb2) =
        Real.sqrt ((xb - xa) * (xb - xa) + (yb - ya) * (yb - ya)) *
        Real.sqrt ((xb - xa) * (xb - xa) + (yb - ya) * (yb - ya)) ∧
      (X - xc2) * (X - xc2) + (Y - yc2) * (Y - yc2) =
        Real.sqrt ((xc - xa) * (xc - xa) + (yc - ya) * (yc - ya)) *
        Real.sqrt ((xc - xa) * (xc - xa) + (yc - ya) * (yc - ya)) ∧
      0 < ((xc2 - xb2) * (Y - yb2) - (yc2 - yb2) * (X - xb2)) *
        ((xc - xb) * (ya - yb) - (yc - yb) * (xa - xb)) := by
  classical
  by_cases hx : xb - xc = 0
  · by_cases hy : (0:ℝ) < yc - yb
    · refine setOne_fixedC xa ya xb yb xc yc L hcross hL hi1 hi2 hi3 ?_
      simp only [jsub_some, hx, jor_zero]
      exact (jgt_some _ _).mpr hy
    · refine setOne_fixedB xa ya xb yb xc yc L hcross hL hi1 hi2 hi3 ?_
      simp only [jsub_some, hx, jor_zero]
      exact fun hc => hy ((jgt_some _ _).mp hc)
  · by_cases hxp : (0:ℝ) < xb - xc
    · refine setOne_fixedC xa ya xb yb xc yc L hcross hL hi1 hi2 hi3 ?_
      simp only [jsub_some]
      rw [jor_some_of_ne hx]
      exact (jgt_some _ _).mpr hxp
    · refine setOne_fixedB xa ya xb yb xc yc L hcross hL hi1 hi2 hi3 ?_
      simp only [jsub_some]
      rw [jor_some_of_ne hx]
      exact fun hc => hxp ((jgt_some _ _).mp hc)

/-- The value is a finite strictly positive number (a NaN has no sign). -/
def sPos (v : JNum) : Prop := ∃ r : ℝ, v = some r ∧ 0 < r

/-- The value is a finite strictly negative number. -/
def sNeg (v : JNum) : Prop := ∃ r : ℝ, v = some r ∧ r < 0

theorem sPos_some (r : ℝ) : sPos (some r) ↔ 0 < r := by
  constructor
  · rintro ⟨s, hs, hpos⟩
    cases Option.some.inj hs
    exact hpos
  · exact fun h => ⟨r, rfl, h⟩

theorem sNeg_some (r : ℝ) : sNeg (some r) ↔ r < 0 := by
  constructor
  · rintro ⟨s, hs, hneg⟩
    cases Option.some.inj hs
    exact hneg
  · exact fun h => ⟨r, rfl, h⟩

set_option maxHeartbeats 1600000 in
/-- Claim C4 (amended): for every nondegenerate triangle and every
single-edge `setSideLength({a: L})` whose requested length is positive and
genuinely satisfies the strict triangle inequality with the third vertex's
preserved distances (the code's string-sorting check can also let through
requests that do not, which corrupt the triangle — see the counterexample),
the call succeeds and the sign of the cross product saying on which side of
the modified edge the third vertex lies is exactly preserved. -/
theorem c4_setSideLength_orientation (xa ya xb yb xc yc L : ℝ)
    (hcross : (xc - xb) * (ya - yb) - (yc - yb) * (xa - xb) ≠ 0)
    (hL : 0 < L)
    (hi1 : L < Real.sqrt ((xc - xa) * (xc - xa) + (yc - ya) * (yc - ya)) +
      Real.sqrt ((xb - xa) * (xb - xa) + (yb - ya) * (yb - ya)))
    (hi2 : Real.sqrt ((xc - xa) * (xc - xa) + (yc - ya) * (yc - ya)) <
      L + Real.sqrt ((xb - xa) * (xb - xa) + (yb - ya) * (yb - ya)))
    (hi3 : Real.sqrt ((xb - xa) * (xb - xa) + (yb - ya) * (yb - ya)) <
      L + Real.sqrt ((xc - xa) * (xc - xa) + (yc - ya) * (yc - ya))) :
    ∃ t' : Tri,
      setSideLength (triABC xa ya xb yb xc yc) [("a", some L)] = .ok t' ∧
      (sPos (crossThird t') ↔ sPos (crossThird (triABC xa ya xb yb xc yc))) ∧
      (sNeg (crossThird t') ↔ sNeg (crossThird (triABC xa ya xb yb xc yc))) := by
  obtain ⟨X, Y, xb2, yb2, xc2, yc2, hrun, hBC, hAB, hAC, hCS⟩ :=
    setOne_a_run xa ya xb yb xc yc L hcross hL hi1 hi2 hi3
  obtain ⟨r, hr⟩ : ∃ v : ℝ,
      v = (xc2 - xb2) * (Y - yb2) - (yc2 - yb2) * (X - xb2) := ⟨_, rfl⟩
  obtain ⟨r0, hr0⟩ : ∃ v : ℝ,
      v = (xc - xb) * (ya - yb) - (yc - yb) * (xa - xb) := ⟨_, rfl⟩
  rw [← hr, ← hr0] at hCS
  refine ⟨_, hrun, ?_, ?_⟩
  · rw [show crossThird (triABC X Y xb2 yb2 xc2 yc2) =
        some ((xc2 - xb2) * (Y - yb2) - (yc2 - yb2) * (X - xb2)) from rfl,
      show crossThird (triABC xa ya xb yb xc yc) =
        some ((xc - xb) * (ya - yb) - (yc - yb) * (xa - xb)) from rfl,
      ← hr, ← hr0, sPos_some, sPos_some]
    constructor
    · intro h
      nlinarith [hCS]
    · intro h
      nlinarith [hCS]
  · rw [show crossThird (triABC X Y xb2 yb2 xc2 yc2) =
        some ((xc2 - xb2) * (Y - yb2) - (yc2 - yb2) * (X - xb2)) from rfl,
      show crossThird (triABC xa ya xb yb xc yc) =
        some ((xc - xb) * (ya - yb) - (yc - yb) * (xa - xb)) from rfl,
      ← hr, ← hr0, sNeg_some, sNeg_some]
    constructor
    · intro h
      nlinarith [hCS]
    · intro h
      nlinarith [hCS]

set_option maxHeartbeats 1600000 in
/-- Claim C5 (amended): for every nondegenerate triangle and every
`setSideLength({a: L})` with `L` positive and genuinely within the strict
triangle inequality against the preserved distances, the call succeeds,
`getSideLength('a')` afterwards returns exactly `L`, and the other two
edges have exactly their original lengths (the code's string-sorted check
can also accept impossible lengths, which instead produce NaN coordinates —
see the counterexample). -/
theorem c5_setSideLength_roundtrip (xa ya xb yb xc yc L : ℝ)
    (hcross : (xc - xb) * (ya - yb) - (yc - yb) * (xa - xb) ≠ 0)
    (hL : 0 < L)
    (hi1 : L < Real.sqrt ((xc - xa) * (xc - xa) + (yc - ya) * (yc - ya)) +
      Real.sqrt ((xb - xa) * (xb - xa) + (yb - ya) * (yb - ya)))
    (hi2 : Real.sqrt ((xc - xa) * (xc - xa) + (yc - ya) * (yc - ya)) <
      L + Real.sqrt ((xb - xa) * (xb - xa) + (yb - ya) * (yb - ya)))
    (hi3 : Real.sqrt ((xb - xa) * (xb - xa) + (yb - ya) * (yb - ya)) <
      L + Real.sqrt ((xc - xa) * (xc - xa) + (yc - ya) * (yc - ya))) :
    ∃ t' : Tri,
      setSideLength (triABC xa ya xb yb xc yc) [("a", some L)] = .ok t' ∧
      getSideLength t' "a" = .ok (some L) ∧
      getSideLength t' "b" =
        .ok (some (Real.sqrt ((xc - xa) * (xc - xa) + (yc - ya) * (yc - ya)))) ∧
      getSideLength t' "c" =
        .ok (some (Real.sqrt ((xb - xa) * (xb - xa) + (yb - ya) * (yb - ya)))) ∧
      getSideLength (triABC xa ya xb yb xc yc) "b" =
        .ok (some (Real.sqrt ((xc - xa) * (xc - xa) + (yc - ya) * (yc - ya)))) ∧
      getSideLength (triABC xa ya xb yb xc yc) "c" =
        .ok (some (Real.sqrt ((xb - xa) * (xb - xa) + (yb - ya) * (yb - ya)))) := by
  obtain ⟨X, Y, xb2, yb2, xc2, yc2, hrun, hBC, hAB, hAC, hCS⟩ :=
    setOne_a_run xa ya xb yb xc yc L hcross hL hi1 hi2 hi3
  refine ⟨_, hrun, ?_, ?_, ?_, ?_, ?_⟩
  · show Except.ok (distPts _ _) = _
    simp only [triABC, triN, distPts, Tri.get_one, Tri.get_two, jsub_some, jsq_some,
      jadd_some]
    rw [show (xc2 - xb2) * (xc2 - xb2) + (yc2 - yb2) * (yc2 - yb2) = L * L from hBC,
      jsqrt_some_of_nonneg (by positivity), Real.sqrt_mul_self hL.le]
  · show Except.ok (distPts _ _) = _
    simp only [triABC, triN, distPts, Tri.get_zero, Tri.get_two, jsub_some, jsq_some,
      jadd_some]
    rw [show (xc2 - X) * (xc2 - X) + (yc2 - Y) * (yc2 - Y) =
        Real.sqrt ((xc - xa) * (xc - xa) + (yc - ya) * (yc - ya)) *
        Real.sqrt ((xc - xa) * (xc - xa) + (yc - ya) * (yc - ya)) from by
        linear_combination hAC,
      jsqrt_some_of_nonneg (by positivity),
      Real.sqrt_mul_self (Real.sqrt_nonneg _)]
  · show Except.ok (distPts _ _) = _
    simp only [triABC, triN, distPts, Tri.get_zero, Tri.get_one, jsub_some, jsq_some,
      jadd_some]
    rw [show (xb2 - X) * (xb2 - X) + (yb2 - Y) * (yb2 - Y) =
        Real.sqrt ((xb - xa) * (xb - xa) + (yb - ya) * (yb - ya)) *
        Real.sqrt ((xb - xa) * (xb - xa) + (yb - ya) * (yb - ya)) from by
        linear_combination hAB,
      jsqrt_some_of_nonneg (by positivity),
      Real.sqrt_mul_self (Real.sqrt_nonneg _)]
  · show Except.ok (distPts _ _) = _
    simp only [triABC, triN, distPts, Tri.get_zero, Tri.get_two, jsub_some, jsq_some,
      jadd_some]
    rw [jsqrt_some_of_nonneg (add_nonneg (mul_self_nonneg _) (mul_self_nonneg _))]
  · show Except.ok (distPts _ _) = _
    simp only [triABC, triN, distPts, Tri.get_zero, Tri.get_one, jsub_some, jsq_some,
      jadd_some]
    rw [jsqrt_some_of_nonneg (add_nonneg (mul_self_nonneg _) (mul_self_nonneg _))]

theorem jsToString_three : jsToString (some (3 : ℝ)) = "3" := by
  rw [show ((3 : ℝ)) = ((3 : ℕ) : ℝ) by norm_num, jsToString_natCast]
  decide

theorem jsToString_five : jsToString (some (5 : ℝ)) = "5" := by
  rw [show ((5 : ℝ)) = ((5 : ℕ) : ℝ) by norm_num, jsToString_natCast]
  decide

theorem jsToString_thirty : jsToString (some (30 : ℝ)) = "30" := by
  rw [show ((30 : ℝ)) = ((30 : ℕ) : ℝ) by norm_num, jsToString_natCast]
  decide

theorem jsSort3_thirty_five_three :
    jsSort3 (some 30) (some 5) (some 3) = (some 3, some 30, some 5) := by
  unfold jsSort3 jsStrLt
  rw [jsToString_three, jsToString_five, jsToString_thirty,
    (by decide : strLtb "5".data "30".data = false),
    (by decide : strLtb "3".data "30".data = true)]
  simp

theorem sqrt_twentyfive : Real.sqrt 25 = 5 := by
  rw [show (25 : ℝ) = 5 ^ 2 by norm_num, Real.sqrt_sq (by norm_num : (0:ℝ) ≤ 5)]

theorem sqrt_nine : Real.sqrt 9 = 3 := by
  rw [show (9 : ℝ) = 3 ^ 2 by norm_num, Real.sqrt_sq (by norm_num : (0:ℝ) ≤ 3)]

theorem sqrt_sixteen : Real.sqrt 16 = 4 := by
  rw [show (16 : ℝ) = 4 ^ 2 by norm_num, Real.sqrt_sq (by norm_num : (0:ℝ) ≤ 4)]

theorem sqrt_ninehundred : Real.sqrt 900 = 30 := by
  rw [show (900 : ℝ) = 30 ^ 2 by norm_num, Real.sqrt_sq (by norm_num : (0:ℝ) ≤ 30)]

set_option maxHeartbeats 1600000 in
theorem setOne_345_30_run :
    setSideLength (triABC 0 3 0 0 4 0) [("a", some 30)] =
      .ok ⟨{ x := none, y := none, name := "A" },
           { x := some 0, y := some 0, name := "B" },
           { x := some 30, y := some 0, name := "C" }⟩ := by
  have hgb : getSideLength ⟨{ x := some (0:ℝ), y := some 3, name := "A" },
      { x := some 0, y := some 0, name := "B" },
      { x := some 4, y := some 0, name := "C" }⟩ "b" = .ok (some 5) := by
    show Except.ok (distPts _ _) = _
    simp only [distPts, Tri.get_zero, Tri.get_two, jsub_some, jsq_some, jadd_some]
    norm_num [jsqrt, sqrt_twentyfive]
  have hgc : getSideLength ⟨{ x := some (0:ℝ), y := some 3, name := "A" },
      { x := some 0, y := some 0, name := "B" },
      { x := some 4, y := some 0, name := "C" }⟩ "c" = .ok (some 3) := by
    show Except.ok (distPts _ _) = _
    simp only [distPts, Tri.get_zero, Tri.get_one, jsub_some, jsq_some, jadd_some]
    norm_num [jsqrt, sqrt_nine]
  unfold setSideLength
  rw [show checkAndMergeSides (triABC 0 3 0 0 4 0) [("a", some 30)] [] =
    .ok [⟨"a", some 30, 1, 2⟩] from rfl]
  dsimp only
  unfold setOneSideLength
  dsimp only [triABC, triN, Tri.get_one, Tri.get_two]
  rw [show jsToLower "B" = "b" from rfl, show jsToLower "C" = "c" from rfl]
  rw [hgb]
  dsimp only
  rw [hgc]
  dsimp only
  rw [jsSort3_thirty_five_three]
  dsimp only
  rw [if_neg (by rw [jadd_some, jle_some]; norm_num)]
  rw [show otherIdx (1 : Fin 3) 2 = (0 : Fin 3) from rfl]
  simp only [jsub_some]
  have hsw : ¬ jgt (jor (some ((0:ℝ) - 4)) (some ((0:ℝ) - 0))) (some 0) := by
    rw [jor_some_of_ne (by norm_num : (0:ℝ) - 4 ≠ 0), jgt_some]
    norm_num
  simp only [if_neg hsw]
  dsimp only [Tri.set_two, Tri.get_zero, Tri.get_one, Tri.get_two]
  norm_num [alcutePoint, jsqrt, jdiv, sqrt_sixteen, sqrt_ninehundred]

/-- Counterexample to C5 as stated universally: starting from the valid 3-4-5
triangle `triABC 0 3 0 0 4 0` (so `b = 5`, `c = 3`), the call
`setSideLength {a: 30}` violates the triangle inequality (30 ≥ 5 + 3) yet
succeeds, because `checkTriangleSidesLength` sorts the three lengths as
strings ("3" < "30" < "5") and compares the wrong pair.  Afterwards vertex A
is `(NaN, NaN)`, so reading side "b" returns NaN rather than its old value 5:
the stated round-trip/preservation property fails on this run. -/
theorem c5_counterexample_nan_sides :
    setSideLength (triABC 0 3 0 0 4 0) [("a", some 30)] =
      .ok ⟨{ x := none, y := none, name := "A" },
           { x := some 0, y := some 0, name := "B" },
           { x := some 30, y := some 0, name := "C" }⟩ ∧
    getSideLength ⟨{ x := none, y := none, name := "A" },
        { x := some 0, y := some 0, name := "B" },
        { x := some 30, y := some 0, name := "C" }⟩ "a" = .ok (some 30) ∧
    getSideLength ⟨{ x := none, y := none, name := "A" },
        { x := some 0, y := some 0, name := "B" },
        { x := some 30, y := some 0, name := "C" }⟩ "b" = .ok none ∧
    getSideLength (triABC 0 3 0 0 4 0) "b" = .ok (some 5) := by
  refine ⟨setOne_345_30_run, ?_, ?_, ?_⟩
  · show Except.ok (distPts _ _) = _
    simp only [distPts, Tri.get_one, Tri.get_two, jsub_some, jsq_some, jadd_some]
    norm_num [jsqrt, sqrt_ninehundred]
  · show Except.ok (distPts _ _) = _
    simp only [distPts, Tri.get_zero, Tri.get_two, jsub_none_right, jsq_none,
      jadd_none_left, jsqrt_none]
  · show Except.ok (distPts _ _) = _
    simp only [triABC, triN, distPts, Tri.get_zero, Tri.get_two, jsub_some, jsq_some,
      jadd_some]
    norm_num [jsqrt, sqrt_twentyfive]

/-- Counterexample to C4 as stated universally: on the same string-sorted
degenerate-accepting run `setSideLength {a: 30}` from the 3-4-5 triangle, the
orientation cross product of the input is `12` (strictly positive) but the
output triangle has vertex A = `(NaN, NaN)`, so its cross product is NaN —
neither positive nor negative.  Orientation is therefore not preserved on
every successful call; it is preserved under the geometric-validity
hypotheses of the claim theorem. -/
theorem c4_counterexample_nan_cross :
    setSideLength (triABC 0 3 0 0 4 0) [("a", some 30)] =
      .ok ⟨{ x := none, y := none, name := "A" },
           { x := some 0, y := some 0, name := "B" },
           { x := some 30, y := some 0, name := "C" }⟩ ∧
    crossThird (triABC 0 3 0 0 4 0) = some 12 ∧
    crossThird ⟨{ x := none, y := none, name := "A" },
        { x := some 0, y := some 0, name := "B" },
        { x := some 30, y := some 0, name := "C" }⟩ = none ∧
    ¬ (sPos (crossThird ⟨{ x := none, y := none, name := "A" },
        { x := some 0, y := some 0, name := "B" },
        { x := some 30, y := some 0, name := "C" }⟩) ↔
       sPos (crossThird (triABC 0 3 0 0 4 0))) := by
  have h1 : crossThird (triABC 0 3 0 0 4 0) = some 12 := by
    simp only [crossThird, triABC, triN, jsub_some, jmul_some]
    norm_num
  have h2 : crossThird ⟨{ x := none, y := none, name := "A" },
      { x := some 0, y := some 0, name := "B" },
      { x := some 30, y := some 0, name := "C" }⟩ = none := by
    simp [crossThird]
  refine ⟨setOne_345_30_run, h1, h2, ?_⟩
  rw [h1, h2]
  intro hiff
  have : sPos (none : JNum) := hiff.mpr ((sPos_some 12).mpr (by norm_num))
  obtain ⟨r, hr, _⟩ := this
  exact Option.noConfusion hr

theorem sqrt345_b : Real.sqrt (((4:ℝ) - 0) * (4 - 0) + (0 - 3) * (0 - 3)) = 5 := by
  rw [show ((4:ℝ) - 0) * (4 - 0) + (0 - 3) * (0 - 3) = 25 by norm_num, sqrt_twentyfive]

theorem sqrt345_c : Real.sqrt (((0:ℝ) - 0) * (0 - 0) + (0 - 3) * (0 - 3)) = 3 := by
  rw [show ((0:ℝ) - 0) * (0 - 0) + (0 - 3) * (0 - 3) = 9 by norm_num, sqrt_nine]

/-- Witness for C4: concrete instantiation at the 3-4-5 right triangle
`A=(0,3), B=(0,0), C=(4,0)` with new length `L = 4` for side "a".  All
hypotheses (non-collinearity, `0 < L`, strict triangle inequalities with
`b = 5`, `c = 3`) hold and are discharged numerically. -/
theorem c4_setSideLength_orientation_witness :
    (((4:ℝ) - 0) * (3 - 0) - (0 - 0) * (0 - 0) ≠ 0) ∧ ((0:ℝ) < 4) ∧
    ((4:ℝ) < Real.sqrt (((4:ℝ) - 0) * (4 - 0) + (0 - 3) * (0 - 3)) +
      Real.sqrt (((0:ℝ) - 0) * (0 - 0) + (0 - 3) * (0 - 3))) ∧
    (Real.sqrt (((4:ℝ) - 0) * (4 - 0) + (0 - 3) * (0 - 3)) <
      4 + Real.sqrt (((0:ℝ) - 0) * (0 - 0) + (0 - 3) * (0 - 3))) ∧
    (Real.sqrt (((0:ℝ) - 0) * (0 - 0) + (0 - 3) * (0 - 3)) <
      4 + Real.sqrt (((4:ℝ) - 0) * (4 - 0) + (0 - 3) * (0 - 3))) ∧
    (∃ t' : Tri,
      setSideLength (triABC 0 3 0 0 4 0) [("a", some 4)] = .ok t' ∧
      (sPos (crossThird t') ↔ sPos (crossThird (triABC 0 3 0 0 4 0))) ∧
      (sNeg (crossThird t') ↔ sNeg (crossThird (triABC 0 3 0 0 4 0)))) := by
  refine ⟨by norm_num, by norm_num, by rw [sqrt345_b, sqrt345_c]; norm_num,
    by rw [sqrt345_b, sqrt345_c]; norm_num, by rw [sqrt345_b, sqrt345_c]; norm_num, ?_⟩
  exact c4_setSideLength_orientation 0 3 0 0 4 0 4 (by norm_num) (by norm_num)
    (by rw [sqrt345_b, sqrt345_c]; norm_num)
    (by rw [sqrt345_b, sqrt345_c]; norm_num)
    (by rw [sqrt345_b, sqrt345_c]; norm_num)

/-- Witness for C5: same concrete instantiation at the 3-4-5 right triangle
with `L = 4`; the call succeeds, side "a" reads back exactly 4, and sides
"b", "c" are unchanged (5 and 3). -/
theorem c5_setSideLength_roundtrip_witness :
    (((4:ℝ) - 0) * (3 - 0) - (0 - 0) * (0 - 0) ≠ 0) ∧ ((0:ℝ) < 4) ∧
    ((4:ℝ) < Real.sqrt (((4:ℝ) - 0) * (4 - 0) + (0 - 3) * (0 - 3)) +
      Real.sqrt (((0:ℝ) - 0) * (0 - 0) + (0 - 3) * (0 - 3))) ∧
    (Real.sqrt (((4:ℝ) - 0) * (4 - 0) + (0 - 3) * (0 - 3)) <
      4 + Real.sqrt (((0:ℝ) - 0) * (0 - 0) + (0 - 3) * (0 - 3))) ∧
    (Real.sqrt (((0:ℝ) - 0) * (0 - 0) + (0 - 3) * (0 - 3)) <
      4 + Real.sqrt (((4:ℝ) - 0) * (4 - 0) + (0 - 3) * (0 - 3))) ∧
    (∃ t' : Tri,
      setSideLength (triABC 0 3 0 0 4 0) [("a", some 4)] = .ok t' ∧
      getSideLength t' "a" = .ok (some 4) ∧
      getSideLength t' "b" =
        .ok (some (Real.sqrt (((4:ℝ) - 0) * (4 - 0) + (0 - 3) * (0 - 3)))) ∧
      getSideLength t' "c" =
        .ok (some (Real.sqrt (((0:ℝ) - 0) * (0 - 0) + (0 - 3) * (0 - 3)))) ∧
      getSideLength (triABC 0 3 0 0 4 0) "b" =
        .ok (some (Real.sqrt (((4:ℝ) - 0) * (4 - 0) + (0 - 3) * (0 - 3)))) ∧
      getSideLength (triABC 0 3 0 0 4 0) "c" =
        .ok (some (Real.sqrt (((0:ℝ) - 0) * (0 - 0) + (0 - 3) * (0 - 3))))) := by
  refine ⟨by norm_num, by norm_num, by rw [sqrt345_b, sqrt345_c]; norm_num,
    by rw [sqrt345_b, sqrt345_c]; norm_num, by rw [sqrt345_b, sqrt345_c]; norm_num, ?_⟩
  exact c5_setSideLength_roundtrip 0 3 0 0 4 0 4 (by norm_num) (by norm_num)
    (by rw [sqrt345_b, sqrt345_c]; norm_num)
    (by rw [sqrt345_b, sqrt345_c]; norm_num)
    (by rw [sqrt345_b, sqrt345_c]; norm_num)
